import Mathlib

/-!
# Verification of the SUV symbolic expression engine
  (`llvm/lib/Transforms/SCHostTransform/SCHostTransform.cpp`)

This file shallowly embeds the symbolic-expression engine of the
SCHostTransform pass: the operator vocabulary, the binary expression-tree
builder `createExpressionTree`, concrete evaluation
(`evaluateExpressionTree` / `evaluateRPN` / `operate`), the interval
evaluators (`evaluateRPNforMax` / `evaluateRPNforMin` with
`getMaxValueForLiterals` / `getMinValueForLiterals`), the coefficient
extractor (`partialDifferenceOfExpressionTreeWRTGivenNode`), the loop
accounting (`partiallyEvaluatedLoopIters`,
`insertCodeComputeLoopIterationCountNested`) and the per-access estimator
dispatch of `insertCodeToComputeAccessDensity`.

Machine integers are modelled as `Nat` with explicit reduction modulo
`2^32` (C++ `unsigned`) and `2^64` (C++ `unsigned long long` and LLVM
`i64`) at exactly the points where the C++ types force a conversion.
Data that the pass reads from LLVM IR objects (block/grid dimensions of
an invocation, resolved constant kernel arguments, stored loop-bound
trees) is packaged in an explicit environment structure; each field is
documented with the global map of the source it stands for.
-/

namespace SCHost

/-! ## Machine-arithmetic helpers -/

/-- `2^32`, the modulus of C++ `unsigned int`. -/
def M32 : Nat := 4294967296

/-- `2^64`, the modulus of C++ `unsigned long long` / LLVM `i64`. -/
def M64 : Nat := 18446744073709551616

/-- Reduction of a value to C++ `unsigned` (32-bit) range. -/
def u32 (n : Nat) : Nat := n % M32

/-- Reduction of a value to C++ `unsigned long long` (64-bit) range. -/
def u64 (n : Nat) : Nat := n % M64

/-- C++ `unsigned` subtraction `a - b` (wraps modulo `2^32`). -/
def u32sub (a b : Nat) : Nat := (a % M32 + (M32 - b % M32)) % M32

/-- Conversion of a C++ `int`/`long long` value to `unsigned` (mod `2^32`). -/
def toU32 (i : Int) : Nat := (i % (M32 : Int)).toNat

/-- Conversion of a signed C++ value to `unsigned long long` (mod `2^64`). -/
def toU64 (i : Int) : Nat := (i % (M64 : Int)).toNat

/-- Value of a decimal digit character. -/
def charDigit (c : Char) : Nat := c.toNat - 48

/-- The longest-digit-prefix accumulator of `std::stoi`: consume decimal
digits until the first non-digit. -/
def parseDigitsAcc : List Char → Nat → Nat
  | [], acc => acc
  | c :: rest, acc =>
    if c.isDigit then parseDigitsAcc rest (acc * 10 + charDigit c) else acc

/-- `std::stoi`/`std::stoll` on expression tokens: an optional leading
`'-'` followed by the longest decimal-digit prefix.  `std::stoi` throws
when that prefix is empty (and on out-of-`int`-range input); the model
returns the parsed prefix value (0 when empty) — the engine only applies
it to tokens `isNumber` classified as numerals and to the digit suffix
of `ARGn`/`PHIn` tokens, so neither throwing case is exercised below. -/
def cppStoi (s : String) : Int :=
  match s.data with
  | '-' :: rest => -(parseDigitsAcc rest 0 : Int)
  | l => (parseDigitsAcc l 0 : Int)

/-! ## Operator vocabulary (`enum ExprTreeOp`, lines 66-112) -/

inductive ExprTreeOp where
  | ETO_PC
  | ETO_ADD
  | ETO_SUB
  | ETO_AND
  | ETO_OR
  | ETO_MUL
  | ETO_DIV
  | ETO_UDIV
  | ETO_SDIV
  | ETO_SREM
  | ETO_FMUL
  | ETO_FDIV
  | ETO_SHL
  | ETO_LSHR
  | ETO_DOUBLE
  | ETO_PHI
  | ETO_ICMP
  | ETO_FCMP
  | ETO_MEMOP
  | ETO_CONST
  | ETO_PHI_TERM
  | ETO_BDIMX
  | ETO_BDIMY
  | ETO_BIDX
  | ETO_BIDY
  | ETO_TIDX
  | ETO_TIDY
  | ETO_ARG
  | ETO_GEP
  | ETO_ZEXT
  | ETO_SEXT
  | ETO_FREEZE
  | ETO_TRUNC
  | ETO_FPTOSI
  | ETO_UITOFP
  | ETO_SITOFP
  | ETO_SELECT
  | ETO_ATOMICRMW
  | ETO_UNDEF
  | ETO_INCOMP
  | ETO_UNKNOWN
  | ETO_CALL
  | ETO_INTERM
  | ETO_LOAD
  | ETO_NONE
deriving DecidableEq, Repr, Fintype

open ExprTreeOp

/-- `enum BlockSizeType` (lines 146-151). -/
inductive BlockSizeType where
  | AXIS_TYPE_BDIMX
  | AXIS_TYPE_BDIMY
  | AXIS_TYPE_BDIMZ
  | AXIS_TYPE_NONE
deriving DecidableEq, Repr

/-- `enum GridSizeType` (lines 153-158). -/
inductive GridSizeType where
  | AXIS_TYPE_GDIMX
  | AXIS_TYPE_GDIMY
  | AXIS_TYPE_GDIMZ
  | AXIS_TYPE_GNONE
deriving DecidableEq, Repr

/-- The `terminals` set populated by `setTerminalsAndOperations`
(lines 5520-5530). -/
def terminals : List ExprTreeOp :=
  [ETO_TIDX, ETO_TIDY, ETO_BIDX, ETO_BIDY, ETO_BDIMX, ETO_BDIMY,
   ETO_PHI_TERM, ETO_ARG, ETO_CONST, ETO_INTERM, ETO_INCOMP]

/-- The `operations` set populated by `setTerminalsAndOperations`
(lines 5532-5541). -/
def operations : List ExprTreeOp :=
  [ETO_ADD, ETO_AND, ETO_SUB, ETO_OR, ETO_MUL, ETO_UDIV, ETO_SDIV,
   ETO_SHL, ETO_PHI, ETO_ICMP]

/-! ## Token classification (`isNumber`, `getExprTreeOp`, lines 829-939) -/

/-- `isNumber` (lines 829-841).  The loop tests `op[0] == '-'` on every
iteration and `continue`s when it holds, so a leading `'-'` disables the
digit check for the whole token; otherwise every character must be a
digit.  The empty string is (vacuously) a number. -/
def isNumber (op : String) : Bool :=
  op.data.all (fun c => op.data.head? == some '-' || c.isDigit)

/-- `getExprTreeOp` (lines 843-936), the token-text → operator map.  The
branch order of the source is kept; in particular `"LOAD"` is compared
(and mapped to `ETO_MEMOP`) at line 881, which makes the second
`"LOAD" → ETO_LOAD` comparison at line 923 dead code.  The final
`assert(0); return ETO_NONE;` is modelled as returning `ETO_NONE`. -/
def getExprTreeOp (op : String) : ExprTreeOp :=
  if isNumber op then ETO_CONST
  else if op == "PC" then ETO_PC
  else if op == "ADD" then ETO_ADD
  else if op == "SUB" then ETO_SUB
  else if op == "AND" then ETO_AND
  else if op == "OR" then ETO_OR
  else if op == "MUL" then ETO_MUL
  else if op == "SHL" then ETO_SHL
  else if op == "LSHR" then ETO_LSHR
  else if op == "DIV" then ETO_DIV
  else if op == "UDIV" then ETO_UDIV
  else if op == "SDIV" then ETO_SDIV
  else if op == "SREM" then ETO_SREM
  else if op == "FDIV" then ETO_FDIV
  else if op == "FMUL" then ETO_FMUL
  else if op == "PHI" then ETO_PHI
  else if op == "ICMP" then ETO_ICMP
  else if op == "FCMP" then ETO_FCMP
  else if op == "LOAD" then ETO_MEMOP
  else if op == "STORE" then ETO_MEMOP
  else if op == "TIDX" then ETO_TIDX
  else if op == "TIDY" then ETO_TIDY
  else if op == "BIDX" then ETO_BIDX
  else if op == "BIDY" then ETO_BIDY
  else if op == "BDIMX" then ETO_BDIMX
  else if op == "BDIMY" then ETO_BDIMY
  else if op == "GEP" then ETO_GEP
  else if op == "ZEXT" then ETO_ZEXT
  else if op == "SEXT" then ETO_SEXT
  else if op == "FREEZE" then ETO_FREEZE
  else if op == "double" then ETO_DOUBLE
  else if op == "TRUNC" then ETO_TRUNC
  else if op == "FPTOSI" then ETO_FPTOSI
  else if op == "SITOFP" then ETO_SITOFP
  else if op == "UITOFP" then ETO_UITOFP
  else if op == "SELECT" then ETO_SELECT
  else if op == "CALL" then ETO_CALL
  else if op == "ATOMICRMW" then ETO_ATOMICRMW
  else if op == "UNDEF" then ETO_UNDEF
  else if op == "LOAD" then ETO_LOAD
  else if op == "INCOMP" then ETO_INCOMP
  else if op == "UNKNOWN" then ETO_UNKNOWN
  else if op.take 3 == "ARG" then ETO_ARG
  else if op.take 3 == "PHI" then ETO_PHI
  else ETO_NONE

/-- `getExprTreeNodeArg` (line 938): `stoi(op.substr(3))`, returned as
`unsigned`. -/
def getExprTreeNodeArg (op : String) : Nat := toU32 (cppStoi (op.drop 3))

/-! ## Binary expression trees (`struct ExprTreeNode`, lines 114-123)

A node carries its operator kind, the optional argument index, the
64-bit scratch `value` payload (used only for `ETO_INTERM` results) and
the original token text.  The `children` array of the C++ struct holds
either no meaningful entries (terminals) or exactly two (operators);
this is modelled by the two constructors of `ExprTree`.  The `parent`
back-pointer is represented, where needed (coefficient extraction), by a
path from the root instead. -/

structure NodeData where
  op : ExprTreeOp
  original_str : String
  arg : Nat
  value : Nat
deriving DecidableEq, Repr

inductive ExprTree where
  | leaf (d : NodeData)
  | node (d : NodeData) (c0 c1 : ExprTree)
deriving DecidableEq, Repr

namespace ExprTree

/-- The `NodeData` stored at the root of a tree. -/
def data : ExprTree → NodeData
  | leaf d => d
  | node d _ _ => d

/-- Number of children of the root (`0` or `2` by construction). -/
def childCount : ExprTree → Nat
  | leaf _ => 0
  | node _ _ _ => 2

/-- Number of nodes of a tree. -/
def size : ExprTree → Nat
  | leaf _ => 1
  | node _ c0 c1 => 1 + c0.size + c1.size

/-- All subtrees (the tree itself and, recursively, the subtrees of its
children). -/
def subtrees : ExprTree → List ExprTree
  | t@(leaf _) => [t]
  | t@(node _ c0 c1) => t :: (c0.subtrees ++ c1.subtrees)

end ExprTree

/-- `isTerminal` (lines 941-947): membership of the node's operator in
`terminals`. -/
def isTerminalOp (o : ExprTreeOp) : Bool := terminals.contains o

/-- `isOperation` (lines 963-968): membership of the node's operator in
`operations`. -/
def isOperationOp (o : ExprTreeOp) : Bool := operations.contains o

/-- `isPhiNode` (lines 957-961). -/
def isPhiNodeOp (o : ExprTreeOp) : Bool := o == ETO_PHI

/-! ## Tree builder (`createExpressionTree`, lines 1527-1614) -/

/-- The node-allocation pass of `createExpressionTree` (lines 1547-1561):
each token is turned into a fresh node with `op = getExprTreeOp(token)`
and, for `ETO_ARG` nodes, `arg = getExprTreeNodeArg(token)`. -/
def mkRPNNode (s : String) : NodeData :=
  let d : NodeData := { op := getExprTreeOp s, original_str := s, arg := 0, value := 0 }
  if d.op == ETO_ARG then { d with arg := getExprTreeNodeArg s } else d

/-- The stack-reduction loop of `createExpressionTree` (lines 1562-1611),
including the two-state PHI protocol: while `phi_term_seen` is `false` a
`PHI` token is retagged `ETO_PHI_TERM` and pushed as a terminal (setting
the flag); while it is `true` a `PHI` token pops two subtrees and builds
a binary merge node (clearing the flag).  Other operation tokens pop two
subtrees (`children[0]` is the first pop); all remaining tokens are
pushed as leaves.  A pop from an empty stack returns `nullptr` (`none`).
After the loop the result is `stack.top()`. -/
def buildFromRPNNodes : List NodeData → List ExprTree → Bool → Option ExprTree
  | [], stack, _ => stack.head?
  | d :: rest, stack, phiTermSeen =>
    if isPhiNodeOp d.op then
      if phiTermSeen == false then
        buildFromRPNNodes rest (ExprTree.leaf { d with op := ETO_PHI_TERM } :: stack) true
      else
        match stack with
        | child1 :: child2 :: stack2 =>
            buildFromRPNNodes rest (ExprTree.node d child1 child2 :: stack2) false
        | _ => none
    else if isOperationOp d.op then
      match stack with
      | child1 :: child2 :: stack2 =>
          buildFromRPNNodes rest (ExprTree.node d child1 child2 :: stack2) phiTermSeen
      | _ => none
    else
      buildFromRPNNodes rest (ExprTree.leaf d :: stack) phiTermSeen

/-- The sentinel pointer-chase node built at lines 1537-1541
(`new ExprTreeNode()` value-initialises every field, then `op = ETO_PC`). -/
def pcSentinel : ExprTree :=
  ExprTree.leaf { op := ETO_PC, original_str := "", arg := 0, value := 0 }

/-- The sentinel incomplete node built at lines 1542-1546. -/
def incompSentinel : ExprTree :=
  ExprTree.leaf { op := ETO_INCOMP, original_str := "", arg := 0, value := 0 }

/-- `createExpressionTree` (lines 1527-1614).  Note that the input token
vector is **reversed** (line 1533) before anything else happens: the
size-0 and size-50 guards see the same length, but the `"INCOMP"` guard
at line 1542 inspects `RPN[0]` **after** the reversal, i.e. the *last*
token of the caller's vector, and the stack reduction consumes the
tokens in reversed order. -/
def createExpressionTree (RPN : List String) : Option ExprTree :=
  let RPNrev := RPN.reverse
  if RPNrev.length == 0 then none
  else if RPNrev.length > 50 then some pcSentinel
  else if RPNrev.head? == some "INCOMP" then some incompSentinel
  else buildFromRPNNodes (RPNrev.map mkRPNNode) [] false

/-! ## Invocation environment

The evaluators read, besides the tree, a number of per-invocation global
maps of the pass.  They are packaged here as one read-only environment.
Values stored in C++ `unsigned` maps are reduced mod `2^32` at the point
of use, so the fields may carry arbitrary `Nat`s. -/

structure KernelEnv where
  /-- `KernelInvocationToBlockSizeMap[CI]` (block dimensions, `unsigned`). -/
  blockSize : BlockSizeType → Nat
  /-- `KernelInvocationToGridSizeMap[CI]` (constant grid dimensions). -/
  gridSize : GridSizeType → Nat
  /-- `KernelInvocationToGridSizeValueMap[CI]`: when an axis is present
  the grid dimension is only available as a host-side expression; the
  engine evaluates it at iteration 0 via
  `evaluateRPNForIter0(CI, getExpressionTree(entry))`.  That walk over
  host LLVM IR is part of the (out-of-scope) launch-configuration
  recovery; the field carries its result directly. -/
  gridSizeValueEval : GridSizeType → Option Nat
  /-- `LoopIDToBoundsExprMapIn[kernelName]`: lower-bound expression tree
  per loop id (the C++ map yields a null tree for an absent id, which
  crashes the evaluator, so presence is assumed). -/
  loopBoundsIn : Nat → ExprTree
  /-- `LoopIDToBoundsExprMapFin[kernelName]`: upper-bound expression tree
  per loop id. -/
  loopBoundsFin : Nat → ExprTree
  /-- `KernelInvocationToArgNumberToConstantMap[CI]`: `none` = index
  absent; `some none` = present but not a `ConstantInt` (the source then
  returns 0); `some (some v)` = `ConstantInt` with signed value `v`. -/
  argConstant : Nat → Option (Option Int)
  /-- The `KernelInvocationToArgNumberToActualArgMap[CI]` entry chased
  through `FormalArgumentToActualArgumentMap`: `none` = no (or null)
  entry; `some none` = bound value is not a `ConstantInt`;
  `some (some v)` = constant with signed value `v`. -/
  argActual : Nat → Option (Option Int)

/-- `getActualHostValueForLiterals` (lines 1150-1200): resolves one
terminal to a concrete `unsigned` value.  `ETO_INTERM` reads the cached
64-bit payload (truncated by the `unsigned` return type), `ETO_CONST`
parses the token, block dimensions come from the invocation,
`ETO_BIDX`/`ETO_BIDY` resolve to 1, `ETO_ARG` goes through the
constant-argument maps, everything else falls through to `return 0`. -/
def getActualHostValueForLiterals (env : KernelEnv) (d : NodeData) : Nat :=
  if d.op == ETO_INTERM then u32 d.value
  else if d.op == ETO_CONST then toU32 (cppStoi d.original_str)
  else if d.op == ETO_BDIMX then u32 (env.blockSize .AXIS_TYPE_BDIMX)
  else if d.op == ETO_BDIMY then u32 (env.blockSize .AXIS_TYPE_BDIMY)
  else if d.op == ETO_BIDX || d.op == ETO_BIDY then 1
  else if d.op == ETO_ARG then
    match env.argConstant d.arg with
    | some (some v) => toU32 v
    | some none => 0
    | none =>
      match env.argActual d.arg with
      | some (some v) => toU32 v
      | _ => 0
  else 0

/-- A fresh `ETO_INTERM` result node carrying a 64-bit value (the
`new ExprTreeNode()` plus `result->op = ETO_INTERM; result->value = res`
idiom of the three `operate*` functions). -/
def mkInterm (res : Nat) : NodeData :=
  { op := ETO_INTERM, original_str := "", arg := 0, value := res }

/-- `operate` (lines 1259-1281): concrete reduction of one binary
operator over `unsigned long long` operands (which are truncated to
`unsigned` by `getActualHostValueForLiterals`).  Only `SHL`, `MUL`,
`ADD` and `OR` (treated as `ADD`) are implemented; for every other
operator the result keeps its initialisation value `1`.  The C++
left-shift is undefined for shift amounts ≥ 64 and is modelled as
multiplication by `2^v2` reduced mod `2^64`. -/
def operate (env : KernelEnv) (operation op1 op2 : NodeData) : NodeData :=
  let v1 := getActualHostValueForLiterals env op1
  let v2 := getActualHostValueForLiterals env op2
  let res : Nat :=
    if operation.op == ETO_SHL then u64 (v1 * 2 ^ v2)
    else if operation.op == ETO_MUL then u64 (v1 * v2)
    else if operation.op == ETO_ADD then u64 (v1 + v2)
    else if operation.op == ETO_OR then u64 (v1 + v2)
    else 1
  mkInterm res

/-! ## RPN conversion (`evaluateExpressionTree`, lines 1381-1397)

The tree is flattened by an explicit stack: the current node is appended
to the output and, if it is an operation, `children[0]` then
`children[1]` are pushed (so the `children[1]` subtree is visited
first); the collected visit order is then reversed. -/

/-- The visit loop of the RPN conversion. -/
def rpnVisit : List ExprTree → List ExprTree → List ExprTree
  | [], acc => acc
  | t :: rest, acc =>
    match t with
    | .leaf _ => rpnVisit rest (acc ++ [t])
    | .node d c0 c1 =>
      if isOperationOp d.op then rpnVisit (c1 :: c0 :: rest) (acc ++ [t])
      else rpnVisit rest (acc ++ [t])
termination_by stack _ => (stack.map ExprTree.size).sum
decreasing_by
  all_goals simp [ExprTree.size]
  all_goals omega

/-- RPN (postfix) form of a tree: the reversed visit order. -/
def toRPN (root : ExprTree) : List ExprTree := (rpnVisit [root] []).reverse

/-- The RPN evaluation loop of `evaluateRPN` (lines 1349-1378).
Operation tokens pop `op1` then `op2` and push the `operate` result
(retagged `ETO_INTERM`, line 1369); the source requires both operands to
be terminal-kind — otherwise it prints `MAJOR ISSUE` and pushes an
*uninitialised* result, modelled as a zero `ETO_INTERM` (unreachable on
well-formed trees).  Terminal tokens cache their resolved value and push
themselves.  The final result is `stack.top()->value` (undefined for an
empty stack, modelled as 0). -/
def evaluateRPNGo (env : KernelEnv) : List ExprTree → List NodeData → Nat
  | [], stack => ((stack.head?).map (·.value)).getD 0
  | t :: rest, stack =>
    if isOperationOp t.data.op then
      match stack with
      | op1 :: op2 :: stack2 =>
        let result :=
          if isTerminalOp op1.op && isTerminalOp op2.op then operate env t.data op1 op2
          else mkInterm 0
        evaluateRPNGo env rest ({ result with op := ETO_INTERM } :: stack2)
      | _ => 0
    else
      evaluateRPNGo env rest
        ({ t.data with value := getActualHostValueForLiterals env t.data } :: stack)

/-- `evaluateRPN` (lines 1349-1378). -/
def evaluateRPN (env : KernelEnv) (RPN : List ExprTree) : Nat :=
  evaluateRPNGo env RPN []

/-- `evaluateExpressionTree` (lines 1381-1402): concrete evaluation under
host-side substitution — RPN conversion followed by RPN evaluation. -/
def evaluateExpressionTree (env : KernelEnv) (root : ExprTree) : Nat :=
  evaluateRPN env (toRPN root)

/-! ## Interval evaluation
(`getMaxValueForLiterals` / `getMinValueForLiterals`, lines 1061-1148,
`operateMax` / `operateMin`, lines 1202-1257,
`evaluateRPNforMax` / `evaluateRPNforMin`, lines 1283-1347) -/

/-- `getMaxValueForLiterals` (lines 1061-1119): max-mode resolution of a
terminal.  An `ETO_ARG` matching the host loop argument resolves to 0; a
phi-term resolves to 1 for the synthetic loop id 0 and otherwise to the
concrete value of the loop's upper-bound expression; `TIDX`/`TIDY`
resolve to (block dimension − 1); `BIDX`/`BIDY` resolve to the
iteration-0 value of the grid-size expression when one is recorded
(note: *without* subtracting 1) and otherwise to (constant grid
dimension − 1).  Everything else resolves concretely. -/
def getMaxValueForLiterals (env : KernelEnv) (LoopArg loopid : Nat)
    (d : NodeData) : Nat :=
  if d.op == ETO_ARG then
    if d.arg == LoopArg then 0 else getActualHostValueForLiterals env d
  else if d.op == ETO_PHI_TERM then
    if loopid == 0 then 1
    else u32 (evaluateExpressionTree env (env.loopBoundsFin loopid))
  else if d.op == ETO_BIDX || d.op == ETO_BIDY || d.op == ETO_TIDX
      || d.op == ETO_TIDY then
    if d.op == ETO_TIDX then u32sub (env.blockSize .AXIS_TYPE_BDIMX) 1
    else if d.op == ETO_TIDY then u32sub (env.blockSize .AXIS_TYPE_BDIMY) 1
    else if d.op == ETO_BIDX then
      match env.gridSizeValueEval .AXIS_TYPE_GDIMX with
      | some gv => u32 gv
      | none => u32sub (env.gridSize .AXIS_TYPE_GDIMX) 1
    else
      match env.gridSizeValueEval .AXIS_TYPE_GDIMY with
      | some gv => u32 gv
      | none => u32sub (env.gridSize .AXIS_TYPE_GDIMY) 1
  else getActualHostValueForLiterals env d

/-- `getMinValueForLiterals` (lines 1121-1148): min-mode resolution of a
terminal.  An `ETO_ARG` matching the host loop argument resolves to 0; a
phi-term resolves to 1 for the synthetic loop id 0 and otherwise to the
concrete value of the loop's lower-bound expression; all of
`BIDX`/`BIDY`/`TIDX`/`TIDY` resolve to 0.  Everything else resolves
concretely. -/
def getMinValueForLiterals (env : KernelEnv) (LoopArg loopid : Nat)
    (d : NodeData) : Nat :=
  if d.op == ETO_ARG then
    if d.arg == LoopArg then 0 else getActualHostValueForLiterals env d
  else if d.op == ETO_PHI_TERM then
    if loopid == 0 then 1
    else u32 (evaluateExpressionTree env (env.loopBoundsIn loopid))
  else if d.op == ETO_BIDX || d.op == ETO_BIDY || d.op == ETO_TIDX
      || d.op == ETO_TIDY then 0
  else getActualHostValueForLiterals env d

/-- `operateMax` (lines 1202-1228): like `operate` but resolving the
operands in max mode and additionally reducing a `PHI` merge to the
larger operand. -/
def operateMax (env : KernelEnv) (LoopArg loopid : Nat)
    (operation op1 op2 : NodeData) : NodeData :=
  let v1 := getMaxValueForLiterals env LoopArg loopid op1
  let v2 := getMaxValueForLiterals env LoopArg loopid op2
  let res : Nat :=
    if operation.op == ETO_SHL then u64 (v1 * 2 ^ v2)
    else if operation.op == ETO_MUL then u64 (v1 * v2)
    else if operation.op == ETO_ADD then u64 (v1 + v2)
    else if operation.op == ETO_OR then u64 (v1 + v2)
    else if operation.op == ETO_PHI then (if v1 < v2 then v2 else v1)
    else 1
  mkInterm res

/-- `operateMin` (lines 1230-1257): like `operateMax` but resolving in
min mode and reducing a `PHI` merge to the smaller operand. -/
def operateMin (env : KernelEnv) (LoopArg loopid : Nat)
    (operation op1 op2 : NodeData) : NodeData :=
  let v1 := getMinValueForLiterals env LoopArg loopid op1
  let v2 := getMinValueForLiterals env LoopArg loopid op2
  let res : Nat :=
    if operation.op == ETO_SHL then u64 (v1 * 2 ^ v2)
    else if operation.op == ETO_MUL then u64 (v1 * v2)
    else if operation.op == ETO_ADD then u64 (v1 + v2)
    else if operation.op == ETO_OR then u64 (v1 + v2)
    else if operation.op == ETO_PHI then (if v1 < v2 then v1 else v2)
    else 1
  mkInterm res

/-- The RPN loop of `evaluateRPNforMax` (lines 1283-1314); same stack
discipline as `evaluateRPNGo`. -/
def evaluateRPNforMaxGo (env : KernelEnv) (LoopArg loopid : Nat) :
    List ExprTree → List NodeData → Nat
  | [], stack => ((stack.head?).map (·.value)).getD 0
  | t :: rest, stack =>
    if isOperationOp t.data.op then
      match stack with
      | op1 :: op2 :: stack2 =>
        let result :=
          if isTerminalOp op1.op && isTerminalOp op2.op then
            operateMax env LoopArg loopid t.data op1 op2
          else mkInterm 0
        evaluateRPNforMaxGo env LoopArg loopid rest
          ({ result with op := ETO_INTERM } :: stack2)
      | _ => 0
    else
      evaluateRPNforMaxGo env LoopArg loopid rest
        ({ t.data with
            value := getMaxValueForLiterals env LoopArg loopid t.data } :: stack)

/-- `evaluateRPNforMax` (lines 1283-1314). -/
def evaluateRPNforMax (env : KernelEnv) (LoopArg loopid : Nat)
    (RPN : List ExprTree) : Nat :=
  evaluateRPNforMaxGo env LoopArg loopid RPN []

/-- The RPN loop of `evaluateRPNforMin` (lines 1316-1347). -/
def evaluateRPNforMinGo (env : KernelEnv) (LoopArg loopid : Nat) :
    List ExprTree → List NodeData → Nat
  | [], stack => ((stack.head?).map (·.value)).getD 0
  | t :: rest, stack =>
    if isOperationOp t.data.op then
      match stack with
      | op1 :: op2 :: stack2 =>
        let result :=
          if isTerminalOp op1.op && isTerminalOp op2.op then
            operateMin env LoopArg loopid t.data op1 op2
          else mkInterm 0
        evaluateRPNforMinGo env LoopArg loopid rest
          ({ result with op := ETO_INTERM } :: stack2)
      | _ => 0
    else
      evaluateRPNforMinGo env LoopArg loopid rest
        ({ t.data with
            value := getMinValueForLiterals env LoopArg loopid t.data } :: stack)

/-- `evaluateRPNforMin` (lines 1316-1347). -/
def evaluateRPNforMin (env : KernelEnv) (LoopArg loopid : Nat)
    (RPN : List ExprTree) : Nat :=
  evaluateRPNforMinGo env LoopArg loopid RPN []

/-- Max-mode evaluation of a whole tree: the composition actually used
by the estimator (RPN conversion followed by the max-mode RPN loop). -/
def evaluateTreeForMax (env : KernelEnv) (LoopArg loopid : Nat)
    (root : ExprTree) : Nat :=
  evaluateRPNforMax env LoopArg loopid (toRPN root)

/-- Min-mode evaluation of a whole tree. -/
def evaluateTreeForMin (env : KernelEnv) (LoopArg loopid : Nat)
    (root : ExprTree) : Nat :=
  evaluateRPNforMin env LoopArg loopid (toRPN root)

/-- Trees the RPN evaluators accept without hitting undefined behaviour:
every internal node is an operation and every leaf a terminal (this is
exactly the shape `createExpressionTree` produces for well-formed
catalogues, and what the `isTerminal(op1) && isTerminal(op2)` check of
the evaluators demands). -/
def wellFormed : ExprTree → Bool
  | .leaf d => isTerminalOp d.op
  | .node d c0 c1 => isOperationOp d.op && wellFormed c0 && wellFormed c1

/-! ## Coefficient extractor
(`findNodeInExpressionTree`, lines 1035-1059;
`findMultipliersByTraversingUpExprTree`, lines 1404-1429;
`partialDifferenceOfExpressionTreeWRTGivenNode`, lines 1487-1525)

The C++ walks `parent` pointers from the found node to the root.  Here a
node's position is a path of directions from the root (`false` = enter
`children[0]`, `true` = enter `children[1]`); walking up along the path
visits the same ancestors in the same (nearest-first) order. -/

/-- The match test of `findNodeInExpressionTree` (lines 1042-1050): the
operator must match, and for `ETO_ARG` additionally the argument index
(on an index mismatch the search continues). -/
def nodeMatches (d : NodeData) (op : ExprTreeOp) (arg : Nat) : Bool :=
  d.op == op && (op != ETO_ARG || d.arg == arg)

/-- `findNodeInExpressionTree` (lines 1035-1059), returning the path of
the first match instead of a node pointer.  The stack-DFS of the source
visits a node, then the whole `children[1]` subtree, then the whole
`children[0]` subtree, and descends only into operation nodes. -/
def findNodePath (op : ExprTreeOp) (arg : Nat) : ExprTree → Option (List Bool)
  | .leaf d => if nodeMatches d op arg then some [] else none
  | .node d c0 c1 =>
    if nodeMatches d op arg then some []
    else if isOperationOp d.op then
      match findNodePath op arg c1 with
      | some p => some (true :: p)
      | none => (findNodePath op arg c0).map (false :: ·)
    else none

/-- `findMultipliersByTraversingUpExprTree` (lines 1404-1429): walking
from the node at `path` up to the root, every `ETO_MUL` / `ETO_SHL`
ancestor contributes the child *not* on the path.  Each entry records
the ancestor's operator, because the consuming fold dispatches on
`(*multiplier)->parent->op`.  The list is ordered nearest ancestor
first, as produced by the upward walk. -/
def findMultipliersUp : ExprTree → List Bool → List (ExprTreeOp × ExprTree)
  | _, [] => []
  | .leaf _, _ :: _ => []
  | .node d c0 c1, dir :: rest =>
    let deeper := findMultipliersUp (if dir then c1 else c0) rest
    if d.op == ETO_MUL || d.op == ETO_SHL then
      deeper ++ [(d.op, if dir then c0 else c1)]
    else deeper

/-- The accumulation loop of
`partialDifferenceOfExpressionTreeWRTGivenNode` (lines 1508-1520):
`FinalMultiplier` starts at 1; a multiplier under an `ETO_MUL` parent
multiplies the accumulator by its concrete value, one under an `ETO_SHL`
parent left-shifts the accumulator by its concrete value (64-bit
`unsigned long long` arithmetic; a shift amount ≥ 64 is undefined in C++
and modelled as multiplication by `2^v` mod `2^64`). -/
def applyMultipliers (env : KernelEnv) :
    List (ExprTreeOp × ExprTree) → Nat → Nat
  | [], acc => acc
  | (pop, other) :: rest, acc =>
    let acc1 :=
      if pop == ETO_MUL then u64 (acc * evaluateExpressionTree env other)
      else if pop == ETO_SHL then
        u64 (acc * 2 ^ evaluateExpressionTree env other)
      else acc
    applyMultipliers env rest acc1

/-- `partialDifferenceOfExpressionTreeWRTGivenNode` (lines 1487-1525).
If the target node is not found the result is 0; otherwise the
accumulated 64-bit multiplier product — truncated by the function's
`unsigned` (32-bit) return type. -/
def partialDifferenceOfExpressionTreeWRTGivenNode (env : KernelEnv)
    (root : ExprTree) (given : ExprTreeOp) (arg : Nat) : Nat :=
  match findNodePath given arg root with
  | none => 0
  | some p => u32 (applyMultipliers env (findMultipliersUp root p) 1)

/-! ## N-ary trees (`struct ExprTreeNodeAdvanced`, lines 125-133) and
`isIndirectAccess` (lines 4955-4979) -/

inductive ExprTreeAdv where
  | mk (d : NodeData) (children : List ExprTreeAdv)

namespace ExprTreeAdv

def data : ExprTreeAdv → NodeData
  | mk d _ => d

def children : ExprTreeAdv → List ExprTreeAdv
  | mk _ cs => cs

mutual
/-- Number of nodes of an n-ary tree. -/
def size : ExprTreeAdv → Nat
  | mk _ cs => 1 + sizeList cs
def sizeList : List ExprTreeAdv → Nat
  | [] => 0
  | c :: rest => size c + sizeList rest
end

mutual
/-- Number of nodes carrying a given operator anywhere in the tree. -/
def countOp (o : ExprTreeOp) : ExprTreeAdv → Nat
  | mk d cs => (if d.op == o then 1 else 0) + countOpList o cs
def countOpList (o : ExprTreeOp) : List ExprTreeAdv → Nat
  | [] => 0
  | c :: rest => countOp o c + countOpList o rest
end

end ExprTreeAdv

/-- The traversal loop of `isIndirectAccess` (lines 4961-4977).  The
stack starts with the root and each popped node pushes its children, but
the load test at line 4964 reads `root->op` — the *root's* operator —
on every iteration, not the current node's.  The first parameter keeps
that root operator fixed. -/
def isIndirectAccessGo (rootOp : ExprTreeOp) :
    List ExprTreeAdv → Bool → Bool
  | [], _ => false
  | c :: rest, found_load =>
    if rootOp == ETO_LOAD then
      if found_load then true
      else isIndirectAccessGo rootOp (c.children.reverse ++ rest) true
    else isIndirectAccessGo rootOp (c.children.reverse ++ rest) found_load
termination_by stack _ => ExprTreeAdv.sizeList stack
decreasing_by
  all_goals
    have happ : ∀ (a b : List ExprTreeAdv),
        ExprTreeAdv.sizeList (a ++ b) =
          ExprTreeAdv.sizeList a + ExprTreeAdv.sizeList b := by
      intro a b
      induction a with
      | nil => simp [ExprTreeAdv.sizeList]
      | cons h t ih => simp [ExprTreeAdv.sizeList, ih]; omega
    have hrev : ∀ (a : List ExprTreeAdv),
        ExprTreeAdv.sizeList a.reverse = ExprTreeAdv.sizeList a := by
      intro a
      induction a with
      | nil => simp
      | cons h t ih =>
          simp [List.reverse_cons, happ, ih, ExprTreeAdv.sizeList]
          omega
    have hsz : ExprTreeAdv.size c = 1 + ExprTreeAdv.sizeList c.children := by
      cases c with
      | mk d cs => simp [ExprTreeAdv.size, ExprTreeAdv.children]
    simp [ExprTreeAdv.sizeList, happ, hrev]
    omega

/-- `isIndirectAccess` (lines 4955-4979). -/
def isIndirectAccess (root : ExprTreeAdv) : Bool :=
  isIndirectAccessGo root.data.op [root] false

/-- `isPointerChase` (lines 4948-4953): the access expression is the
pointer-chase sentinel. -/
def isPointerChase (root : ExprTree) : Bool := root.data.op == ETO_PC

/-! ## Emitted-code model

`insertCodeToComputeAccessDensity` and the loop accounting do not
compute numbers at compile time; they *emit* LLVM instructions that
compute them at run time.  Emitted values are modelled as a small
expression type carrying the integer width of each SSA value; `denote`
gives the run-time value (reduced mod `2^width`) and `width` the LLVM
integer type. -/

inductive IRVal where
  /-- `Builder.getInt32` / `Builder.getInt64` constants. -/
  | intConst (w : Nat) (v : Nat)
  /-- `insertCodeToCastInt32ToInt64` (lines 3403-3410):
  `CreateIntCast(V, i64, /-isSigned=-/true)`. -/
  | sext3264 (x : IRVal)
  /-- A binary LLVM instruction (`CreateAdd`, `CreateSub`, `CreateMul`,
  `CreateUDiv`, `CreateSDiv`, `CreateAnd`, `CreateOr`, `CreateShl`)
  tagged with the `ExprTreeOp` naming that instruction. -/
  | binop (op : ExprTreeOp) (a b : IRVal)
deriving DecidableEq, Repr

namespace IRVal

/-- The LLVM integer width of an emitted value (binary instructions
require and produce the common operand type). -/
def width : IRVal → Nat
  | intConst w _ => w
  | sext3264 _ => 64
  | binop _ a _ => a.width

/-- Run-time value of an emitted expression, as an unsigned value
reduced mod `2^width`.  `CreateShl` with a shift amount ≥ width yields
poison in LLVM and is modelled as wrap-around; `CreateUDiv`/`CreateSDiv`
by zero is UB and modelled by Lean's total division. -/
def denote : IRVal → Nat
  | intConst w v => v % 2 ^ w
  | sext3264 x =>
    let v := u32 x.denote
    if v < 2147483648 then v else v + (M64 - M32)
  | binop op a b =>
    let m := 2 ^ a.width
    if op == ETO_ADD then (a.denote + b.denote) % m
    else if op == ETO_SUB then (a.denote + (m - b.denote % m)) % m
    else if op == ETO_MUL then (a.denote * b.denote) % m
    else if op == ETO_UDIV then a.denote / b.denote
    else if op == ETO_SDIV then
      (((Int.subNatNat a.denote (if a.denote < m / 2 then 0 else m)).tdiv
        (Int.subNatNat b.denote (if b.denote < m / 2 then 0 else m))) % (m : Int)).toNat
    else if op == ETO_AND then Nat.land a.denote b.denote % m
    else if op == ETO_OR then Nat.lor a.denote b.denote % m
    else if op == ETO_SHL then (a.denote * 2 ^ b.denote) % m
    else 0

end IRVal

open IRVal in
/-- `insertComputationNode` (lines 4547-4618).  Mismatched integer
operand widths are unified by sign-extending whichever operand is
32-bit; then the instruction is selected: note that `ETO_DIV` emits an
*unsigned* division and that `ETO_SHL` emits `CreateShl(Src2, Src1)` —
the operands are swapped (line 4596, "thanks to our convention").
Unknown operators fail the trailing assert and return null (`none`). -/
def insertComputationNode (Src1 Src2 : IRVal) (Op : ExprTreeOp) :
    Option IRVal :=
  let mismatch := Src1.width != Src2.width
  let R1 := if mismatch && Src1.width == 32 then sext3264 Src1 else Src1
  let R2 := if mismatch && Src2.width == 32 then sext3264 Src2 else Src2
  if Op == ETO_ADD then some (binop ETO_ADD R1 R2)
  else if Op == ETO_SUB then some (binop ETO_SUB R1 R2)
  else if Op == ETO_AND then some (binop ETO_AND R1 R2)
  else if Op == ETO_OR then some (binop ETO_OR R1 R2)
  else if Op == ETO_MUL then some (binop ETO_MUL R1 R2)
  else if Op == ETO_SHL then some (binop ETO_SHL R2 R1)
  else if Op == ETO_DIV then some (binop ETO_UDIV R1 R2)
  else if Op == ETO_UDIV then some (binop ETO_UDIV R1 R2)
  else if Op == ETO_SDIV then some (binop ETO_SDIV R1 R2)
  else none

open IRVal in
/-- `insertCodeToCastInt32ToInt64` (lines 3403-3410); the source asserts
its argument is 32-bit. -/
def insertCodeToCastInt32ToInt64 (V : IRVal) : IRVal := sext3264 V

open IRVal in
/-- `insertCodeToMultiplyInt64` (lines 3413-3427): sign-extends either
operand that is 32-bit, then emits a 64-bit multiply. -/
def insertCodeToMultiplyInt64 (V1 V2 : IRVal) : IRVal :=
  let R1 := if V1.width == 32 then sext3264 V1 else V1
  let R2 := if V2.width == 32 then sext3264 V2 else V2
  binop ETO_MUL R1 R2

open IRVal in
/-- The `insertConstantNode(Location, ExprTreeNode*)` overload
(lines 4694-4701): `Builder.getInt32(Node->value)` — the 64-bit `value`
payload truncated to `i32`. -/
def insertConstantNodeFromNode (d : NodeData) : IRVal :=
  intConst 32 (u32 d.value)

open IRVal in
/-- The `insertConstantNode(Location, unsigned)` overload
(lines 4715-4723): a 32-bit constant. -/
def insertConstantNodeU32 (v : Nat) : IRVal := intConst 32 (u32 v)

open IRVal in
/-- The `insertConstantNode(Location, unsigned long long)` overload
(lines 4737-4744): a 64-bit constant. -/
def insertConstantNodeU64 (v : Nat) : IRVal := intConst 64 (u64 v)

/-! ## Loop accounting
(`partiallyEvaluatedLoopIters`, lines 4896-4937;
`insertLoopItersEvaluationCode`, lines 4766-4817;
`insertCodeToComputeKernelLoopIterationCount`, lines 4099-4139;
`insertCodeComputeLoopIterationCountNested`, lines 4165-4182) -/

/-- The token-splitting loop of `partiallyEvaluatedLoopIters`
(lines 4909-4923): the marker tokens `IN` / `FIN` / `STEP` select the
current bucket (initially the `IN` bucket), every other token is
appended to the current bucket. -/
def splitLoopBoundsTokens (tokens : List String) :
    List String × List String × List String :=
  go tokens 0 ([], [], [])
where
  go : List String → Nat → (List String × List String × List String) →
      List String × List String × List String
  | [], _, acc => acc
  | tk :: rest, cur, (s0, s1, s2) =>
    if tk == "IN" then go rest 0 (s0, s1, s2)
    else if tk == "FIN" then go rest 1 (s0, s1, s2)
    else if tk == "STEP" then go rest 2 (s0, s1, s2)
    else if cur == 0 then go rest cur (s0 ++ [tk], s1, s2)
    else if cur == 1 then go rest cur (s0, s1 ++ [tk], s2)
    else go rest cur (s0, s1, s2 ++ [tk])

/-- `doOperationOnNodes` (lines 4939-4946): a fresh operator node over
two existing subtrees. -/
def doOperationOnNodes (Op : ExprTreeOp) (Left Right : ExprTree) : ExprTree :=
  ExprTree.node { op := Op, original_str := "", arg := 0, value := 0 } Left Right

/-- `partiallyEvaluatedLoopIters` (lines 4896-4937).  `kernelLoopBounds`
stands for `LoopIDToLoopBoundsMap[kernelName]`.  Loop id 0 and ids with
no stored bounds yield `none` (`nullptr`); otherwise the stored tokens
are split into `IN`/`FIN`/`STEP` buckets, each bucket is built into a
tree, and — only when *both* the initial and the final tree were built —
the result is the tree `(Fin − In) / Step`.  A failed `Step` build is
*not* checked by the source (the null pointer is embedded in the
result); that unchecked null child is modelled as an `ETO_NONE` leaf. -/
def partiallyEvaluatedLoopIters (kernelLoopBounds : Nat → Option (List String))
    (loopID : Nat) : Option ExprTree :=
  if loopID == 0 then none
  else
    match kernelLoopBounds loopID with
    | none => none
    | some tokens =>
      let s := splitLoopBoundsTokens tokens
      let In := createExpressionTree s.1
      let Fin := createExpressionTree s.2.1
      let Step := createExpressionTree s.2.2
      match In, Fin with
      | some i, some f =>
        let FinMinusIn := doOperationOnNodes ETO_SUB f i
        some (doOperationOnNodes ETO_DIV FinMinusIn
          (Step.getD (ExprTree.leaf { op := ETO_NONE, original_str := "", arg := 0, value := 0 })))
      | _, _ => none

/-- The terminal cases of `insertLoopItersEvaluationCode`
(lines 4771-4803): a caller-supplied unknown wins; constants re-parse
their token into the node payload and emit it as an `i32` constant;
`BIDX`/`BIDY`/`TIDX`/`TIDY`/`INCOMP` emit the constant 0; any other
terminal hits `assert(false)` (`none`). -/
def insertLoopItersTerminal (unknowns : NodeData → Option IRVal)
    (d : NodeData) : Option IRVal :=
  match unknowns d with
  | some val => some val
  | none =>
    if d.op == ETO_CONST then
      some (insertConstantNodeFromNode { d with value := toU64 (cppStoi d.original_str) })
    else if d.op == ETO_BIDX then some (insertConstantNodeU32 0)
    else if d.op == ETO_BIDY then some (insertConstantNodeU32 0)
    else if d.op == ETO_TIDX then some (insertConstantNodeU32 0)
    else if d.op == ETO_TIDY then some (insertConstantNodeU32 0)
    else if d.op == ETO_INCOMP then some (insertConstantNodeU32 0)
    else none

/-- `insertLoopItersEvaluationCode` (lines 4766-4817): emits code
evaluating a loop-iteration expression tree.  Terminal-kind nodes go
through `insertLoopItersTerminal`; any other node emits its two children
and combines them with `insertComputationNode` (a leaf with a
non-terminal kind would dereference garbage children in C++, modelled as
`none`).  `unknowns` stands for the node-keyed `Unknowns` map that
`identifyUnknownsFromExpressionTree` fills with runtime handles for
host-resolved terminals. -/
def insertLoopItersEvaluationCode (unknowns : NodeData → Option IRVal) :
    ExprTree → Option IRVal
  | .leaf d =>
    if isTerminalOp d.op then insertLoopItersTerminal unknowns d else none
  | .node d c0 c1 =>
    if isTerminalOp d.op then insertLoopItersTerminal unknowns d
    else do
      let Left ← insertLoopItersEvaluationCode unknowns c0
      let Right ← insertLoopItersEvaluationCode unknowns c1
      insertComputationNode Left Right d.op

/-- The per-loop incomputability flag set by
`insertCodeToComputeKernelLoopIterationCount` (lines 4109-4135):
`LoopIDToIncompMap[id]` becomes `true` exactly when
`partiallyEvaluatedLoopIters` returned null for that id. -/
def loopMarkedIncomputable (kernelLoopBounds : Nat → Option (List String))
    (loopID : Nat) : Bool :=
  (partiallyEvaluatedLoopIters kernelLoopBounds loopID).isNone

/-- The `LoopIDToNumIterationsMap` entry produced by
`insertCodeToComputeKernelLoopIterationCount` (lines 4119-4133) for a
loop whose bound tree was built. -/
def loopIterationsEntry (unknowns : NodeData → Option IRVal)
    (kernelLoopBounds : Nat → Option (List String)) (loopID : Nat) :
    Option IRVal :=
  match partiallyEvaluatedLoopIters kernelLoopBounds loopID with
  | none => none
  | some t => insertLoopItersEvaluationCode unknowns t

/-- The `while (parentLoopId != 0)` walk of
`insertCodeComputeLoopIterationCountNested` (lines 4173-4180),
multiplying in each parent loop's iteration count with
`insertCodeToMultiplyInt64`.  The source recurses through
`LoopIDToParentLoopIDMap` with no cycle protection; `fuel` bounds the
walk, and exhausting it (or a missing `LoopIDToNumIterationsMap` entry,
a null pointer in C++) yields `none`. -/
def nestedItersWalk (parentMap : Nat → Nat) (itersMap : Nat → Option IRVal) :
    Nat → Nat → IRVal → Option IRVal
  | fuel, loopid, acc =>
    let parentLoopId := parentMap loopid
    if parentLoopId == 0 then some acc
    else
      match fuel with
      | 0 => none
      | fuel + 1 =>
        match itersMap parentLoopId with
        | none => none
        | some ParentLoopIters =>
          nestedItersWalk parentMap itersMap fuel parentLoopId
            (insertCodeToMultiplyInt64 acc ParentLoopIters)

/-- `insertCodeComputeLoopIterationCountNested` (lines 4165-4182): the
access's own loop count is promoted to 64 bits if it is 32-bit, then the
parent chain is walked, multiplying in each ancestor's count. -/
def insertCodeComputeLoopIterationCountNested (parentMap : Nat → Nat)
    (itersMap : Nat → Option IRVal) (fuel loopid : Nat) : Option IRVal :=
  match itersMap loopid with
  | none => none
  | some LoopIters0 =>
    let LoopIters :=
      if LoopIters0.width == 32 then insertCodeToCastInt32ToInt64 LoopIters0
      else LoopIters0
    nestedItersWalk parentMap itersMap fuel loopid LoopIters

/-! ## Per-access estimator dispatch
(`insertCodeToComputeAccessDensity`, lines 4234-4338) -/

/-- What the estimator records for one access, following the `continue`
structure of the per-access loop. -/
inductive AccessOutcome where
  /-- `isPointerChase` held: `insertCodeToSetPChase`, no estimate
  (lines 4274-4278). -/
  | pointerChase
  /-- the enclosing loop was flagged incomputable:
  `insertCodeToSetIncomp`, no estimate (lines 4293-4297). -/
  | incomputable
  /-- `isIndirectAccess` held: the execution count was recorded but the
  working-set computation is skipped (lines 4319-4323). -/
  | indirectSkipped (executionCount : IRVal)
  /-- full estimate: recorded execution count, and the working-set /
  partial-difference pipeline runs (lines 4299-4337; the emitted
  working-set value itself is outside this model). -/
  | estimated (executionCount : IRVal)
deriving DecidableEq, Repr

/-- The per-access body of `insertCodeToComputeAccessDensity`
(lines 4262-4338) for one access with enclosing loop id
`enclosingLoopId`, binary tree `Expr` and n-ary tree `AdvExpr`.
`NumThreadsInGrid` is the emitted grid-wide thread count (produced by
the out-of-scope launch-configuration recovery).  A `none` result models
a path on which the source dereferences a null emitted value (never
taken in the verified scenarios). -/
def accessDensityOutcome (parentMap : Nat → Nat)
    (itersMap : Nat → Option IRVal) (incompMap : Nat → Bool)
    (NumThreadsInGrid : IRVal) (fuel : Nat) (enclosingLoopId : Nat)
    (Expr : ExprTree) (AdvExpr : ExprTreeAdv) : Option AccessOutcome :=
  if isPointerChase Expr then some .pointerChase
  else if enclosingLoopId == 0 then
    -- LoopIters := insertConstantNode(1); ExecutionCount := NumThreadsInGrid
    let ExecutionCount := NumThreadsInGrid
    if isIndirectAccess AdvExpr then some (.indirectSkipped ExecutionCount)
    else some (.estimated ExecutionCount)
  else if incompMap enclosingLoopId then some .incomputable
  else
    match insertCodeComputeLoopIterationCountNested parentMap itersMap fuel
        enclosingLoopId with
    | none => none
    | some LoopIters =>
      match insertComputationNode LoopIters NumThreadsInGrid ETO_MUL with
      | none => none
      | some ExecutionCount =>
        if isIndirectAccess AdvExpr then some (.indirectSkipped ExecutionCount)
        else some (.estimated ExecutionCount)

/-! ## Derived evaluator forms

The RPN machines above are what the source runs.  For reasoning, the
following equivalent structural forms are defined; the bridge lemmas in
the theorem section prove that on well-formed trees the machines compute
exactly these functions.  `maxCombine`/`minCombine` are the `res`
computations of `operateMax`/`operateMin` factored out; the `Raw`
variants drop the `unsigned`/`unsigned long long` reductions and are
used to phrase overflow-freedom. -/

/-- The `res` computation of `operateMax` (lines 1208-1224). -/
def maxCombine (op : ExprTreeOp) (v1 v2 : Nat) : Nat :=
  if op == ETO_SHL then u64 (v1 * 2 ^ v2)
  else if op == ETO_MUL then u64 (v1 * v2)
  else if op == ETO_ADD then u64 (v1 + v2)
  else if op == ETO_OR then u64 (v1 + v2)
  else if op == ETO_PHI then (if v1 < v2 then v2 else v1)
  else 1

/-- The `res` computation of `operateMin` (lines 1236-1252). -/
def minCombine (op : ExprTreeOp) (v1 v2 : Nat) : Nat :=
  if op == ETO_SHL then u64 (v1 * 2 ^ v2)
  else if op == ETO_MUL then u64 (v1 * v2)
  else if op == ETO_ADD then u64 (v1 + v2)
  else if op == ETO_OR then u64 (v1 + v2)
  else if op == ETO_PHI then (if v1 < v2 then v1 else v2)
  else 1

/-- Structural form of max-mode evaluation: operand reads go through the
`unsigned` return type of `getMaxValueForLiterals` (the `u32`), the
combination through 64-bit arithmetic.  `children[1]` is popped first
(`op1`/`v1`), `children[0]` second (`op2`/`v2`). -/
def evalMaxStruct (env : KernelEnv) (LoopArg loopid : Nat) : ExprTree → Nat
  | .leaf d => getMaxValueForLiterals env LoopArg loopid d
  | .node d c0 c1 =>
    if isOperationOp d.op then
      maxCombine d.op (u32 (evalMaxStruct env LoopArg loopid c1))
        (u32 (evalMaxStruct env LoopArg loopid c0))
    else getMaxValueForLiterals env LoopArg loopid d

/-- Structural form of min-mode evaluation. -/
def evalMinStruct (env : KernelEnv) (LoopArg loopid : Nat) : ExprTree → Nat
  | .leaf d => getMinValueForLiterals env LoopArg loopid d
  | .node d c0 c1 =>
    if isOperationOp d.op then
      minCombine d.op (u32 (evalMinStruct env LoopArg loopid c1))
        (u32 (evalMinStruct env LoopArg loopid c0))
    else getMinValueForLiterals env LoopArg loopid d

/-- `maxCombine` without the 64-bit reduction (ideal arithmetic). -/
def maxCombineRaw (op : ExprTreeOp) (v1 v2 : Nat) : Nat :=
  if op == ETO_SHL then v1 * 2 ^ v2
  else if op == ETO_MUL then v1 * v2
  else if op == ETO_ADD then v1 + v2
  else if op == ETO_OR then v1 + v2
  else if op == ETO_PHI then (if v1 < v2 then v2 else v1)
  else 1

/-- `minCombine` without the 64-bit reduction. -/
def minCombineRaw (op : ExprTreeOp) (v1 v2 : Nat) : Nat :=
  if op == ETO_SHL then v1 * 2 ^ v2
  else if op == ETO_MUL then v1 * v2
  else if op == ETO_ADD then v1 + v2
  else if op == ETO_OR then v1 + v2
  else if op == ETO_PHI then (if v1 < v2 then v1 else v2)
  else 1

/-- Max-mode evaluation in ideal (unbounded) arithmetic. -/
def evalMaxRaw (env : KernelEnv) (LoopArg loopid : Nat) : ExprTree → Nat
  | .leaf d => getMaxValueForLiterals env LoopArg loopid d
  | .node d c0 c1 =>
    if isOperationOp d.op then
      maxCombineRaw d.op (evalMaxRaw env LoopArg loopid c1)
        (evalMaxRaw env LoopArg loopid c0)
    else getMaxValueForLiterals env LoopArg loopid d

/-- Min-mode evaluation in ideal (unbounded) arithmetic. -/
def evalMinRaw (env : KernelEnv) (LoopArg loopid : Nat) : ExprTree → Nat
  | .leaf d => getMinValueForLiterals env LoopArg loopid d
  | .node d c0 c1 =>
    if isOperationOp d.op then
      minCombineRaw d.op (evalMinRaw env LoopArg loopid c1)
        (evalMinRaw env LoopArg loopid c0)
    else getMinValueForLiterals env LoopArg loopid d

/-- The node the max-mode RPN machine leaves on the stack for a
(well-formed) subtree: terminals carry their resolved value, operator
results are `ETO_INTERM` nodes. -/
def machineResMax (env : KernelEnv) (LoopArg loopid : Nat) :
    ExprTree → NodeData
  | .leaf d => { d with value := getMaxValueForLiterals env LoopArg loopid d }
  | t@(.node _ _ _) => mkInterm (evalMaxStruct env LoopArg loopid t)

/-- The node the min-mode RPN machine leaves on the stack. -/
def machineResMin (env : KernelEnv) (LoopArg loopid : Nat) :
    ExprTree → NodeData
  | .leaf d => { d with value := getMinValueForLiterals env LoopArg loopid d }
  | t@(.node _ _ _) => mkInterm (evalMinStruct env LoopArg loopid t)

/-- The visit order of `rpnVisit` for a single tree: the node first,
then (for operations) the `children[1]` subtree, then the `children[0]`
subtree. -/
def preVisit : ExprTree → List ExprTree
  | t@(.leaf _) => [t]
  | t@(.node d c0 c1) =>
    if isOperationOp d.op then t :: (preVisit c1 ++ preVisit c0) else [t]

/-- Postfix order: the reverse of `preVisit`; the bridge lemma
`toRPN_eq_postfixList` identifies it with `toRPN`. -/
def postfixList : ExprTree → List ExprTree
  | t@(.leaf _) => [t]
  | t@(.node d c0 c1) =>
    if isOperationOp d.op then postfixList c0 ++ postfixList c1 ++ [t] else [t]

/-- Every `CreateMul` inside an emitted expression has two 64-bit
operands (the "promotion before each multiply" property of the nested
loop-count emission). -/
def allMulOperands64 : IRVal → Bool
  | .intConst _ _ => true
  | .sext3264 x => allMulOperands64 x
  | .binop op a b =>
    (!(op == ETO_MUL) || (a.width == 64 && b.width == 64)) &&
      allMulOperands64 a && allMulOperands64 b

/-- The chain of parent loop ids visited by the
`while (parentLoopId != 0)` walk, starting at (but excluding) `lid`,
when it reaches the top within `fuel` steps. -/
def parentChain (parentMap : Nat → Nat) : Nat → Nat → Option (List Nat)
  | fuel, lid =>
    if parentMap lid == 0 then some []
    else
      match fuel with
      | 0 => none
      | f + 1 => (parentChain parentMap f (parentMap lid)).map (parentMap lid :: ·)

/-- The structural invariant of §3 of the specification: in every node
of the tree, an operation kind comes with exactly two children and a
terminal kind with none. -/
def TreeShapeOk (t : ExprTree) : Prop :=
  ∀ s ∈ t.subtrees,
    (isOperationOp s.data.op = true → s.childCount = 2) ∧
    (isTerminalOp s.data.op = true → s.childCount = 0)

/-! ## Concrete invocation scenarios used by the verification -/

/-- A constant-0 expression tree (placeholder loop-bound entry). -/
def zeroBoundTree : ExprTree :=
  ExprTree.leaf { op := ETO_CONST, original_str := "0", arg := 0, value := 0 }

/-- Baseline invocation environment: no resolved dimensions, no
constant arguments. -/
def envBase : KernelEnv :=
  { blockSize := fun _ => 0
    gridSize := fun _ => 0
    gridSizeValueEval := fun _ => none
    loopBoundsIn := fun _ => zeroBoundTree
    loopBoundsFin := fun _ => zeroBoundTree
    argConstant := fun _ => none
    argActual := fun _ => none }

/-- Environment binding kernel argument 0 to the constant 10. -/
def envArg10 : KernelEnv :=
  { envBase with
    argConstant := fun i => if i == 0 then some (some 10) else none }

/-- Environment whose x grid size is recorded as a host expression whose
iteration-0 evaluation yields 7. -/
def envGridExpr7 : KernelEnv :=
  { envBase with
    gridSizeValueEval := fun a =>
      if a == GridSizeType.AXIS_TYPE_GDIMX then some 7 else none }

/-- Environment with the known constant x grid size 7. -/
def envGridConst7 : KernelEnv :=
  { envBase with
    gridSize := fun a => if a == GridSizeType.AXIS_TYPE_GDIMX then 7 else 0 }

/-- Environment with x block dimension 65536. -/
def envBdim65536 : KernelEnv :=
  { envBase with
    blockSize := fun a =>
      if a == BlockSizeType.AXIS_TYPE_BDIMX then 65536 else 0 }

/-- Environment with x block dimension 4. -/
def envBdim4 : KernelEnv :=
  { envBase with
    blockSize := fun a =>
      if a == BlockSizeType.AXIS_TYPE_BDIMX then 4 else 0 }

/-- `ADD(MUL(ADD(TIDX, 1), ADD(TIDX, 1)), 7)`: with x block dimension
`65536` the max-mode value of the inner product is `2^32`, which the
32-bit operand read of the outer `ADD` truncates to 0. -/
def overflowTree : ExprTree :=
  ExprTree.node { op := ETO_ADD, original_str := "ADD", arg := 0, value := 0 }
    (ExprTree.node { op := ETO_MUL, original_str := "MUL", arg := 0, value := 0 }
      (ExprTree.node { op := ETO_ADD, original_str := "ADD", arg := 0, value := 0 }
        (ExprTree.leaf { op := ETO_TIDX, original_str := "TIDX", arg := 0, value := 0 })
        (ExprTree.leaf { op := ETO_CONST, original_str := "1", arg := 0, value := 0 }))
      (ExprTree.node { op := ETO_ADD, original_str := "ADD", arg := 0, value := 0 }
        (ExprTree.leaf { op := ETO_TIDX, original_str := "TIDX", arg := 0, value := 0 })
        (ExprTree.leaf { op := ETO_CONST, original_str := "1", arg := 0, value := 0 })))
    (ExprTree.leaf { op := ETO_CONST, original_str := "7", arg := 0, value := 0 })

/-- `ADD(TIDX, 5)`: a small overflow-free interval scenario. -/
def smallAddTree : ExprTree :=
  ExprTree.node { op := ETO_ADD, original_str := "ADD", arg := 0, value := 0 }
    (ExprTree.leaf { op := ETO_TIDX, original_str := "TIDX", arg := 0, value := 0 })
    (ExprTree.leaf { op := ETO_CONST, original_str := "5", arg := 0, value := 0 })

/-- `MUL(ARG0, CONST 7)`. -/
def mulArg0By7 : ExprTree :=
  ExprTree.node { op := ETO_MUL, original_str := "MUL", arg := 0, value := 0 }
    (ExprTree.leaf { op := ETO_ARG, original_str := "ARG0", arg := 0, value := 0 })
    (ExprTree.leaf { op := ETO_CONST, original_str := "7", arg := 0, value := 0 })

/-- `SHL(ARG0, CONST 32)`. -/
def shlArg0By32 : ExprTree :=
  ExprTree.node { op := ETO_SHL, original_str := "SHL", arg := 0, value := 0 }
    (ExprTree.leaf { op := ETO_ARG, original_str := "ARG0", arg := 0, value := 0 })
    (ExprTree.leaf { op := ETO_CONST, original_str := "32", arg := 0, value := 0 })

/-- An n-ary access expression containing two `LOAD` operator nodes
under an `ADD` root. -/
def twoLoadAdv : ExprTreeAdv :=
  ExprTreeAdv.mk { op := ETO_ADD, original_str := "ADD", arg := 0, value := 0 }
    [ExprTreeAdv.mk { op := ETO_LOAD, original_str := "LOAD", arg := 0, value := 0 } [],
     ExprTreeAdv.mk { op := ETO_LOAD, original_str := "LOAD", arg := 0, value := 0 } []]

/-- An n-ary access expression with no load at all. -/
def constAdv : ExprTreeAdv :=
  ExprTreeAdv.mk { op := ETO_CONST, original_str := "0", arg := 0, value := 0 } []

/-- Loop-bounds table with one loop of constant bounds
`IN 4 FIN 20 STEP 2`. -/
def boundsConst : Nat → Option (List String) :=
  fun l => if l == 1 then some ["IN", "4", "FIN", "20", "STEP", "2"] else none

/-- Loop-bounds table whose initial bound cannot be built (a lone `MUL`
token underflows the builder stack). -/
def boundsBroken : Nat → Option (List String) :=
  fun l => if l == 1 then some ["IN", "MUL", "FIN", "20", "STEP", "2"] else none

/-- Parent map of two nested loops: loop 2 is inside loop 1. -/
def parentMapTwoLoops : Nat → Nat := fun l => if l == 2 then 1 else 0

/-- Per-loop iteration counts of the two nested loops, as emitted 32-bit
values: loop 1 runs 7 times, loop 2 runs 9 times. -/
def itersMapTwoLoops : Nat → Option IRVal :=
  fun l =>
    if l == 1 then some (IRVal.intConst 32 7)
    else if l == 2 then some (IRVal.intConst 32 9) else none

/-- The iteration value assignment matching `itersMapTwoLoops`. -/
def valsTwoLoops : Nat → IRVal :=
  fun l => if l == 1 then IRVal.intConst 32 7 else IRVal.intConst 32 9

end SCHost

namespace SCHost

/-! # Helper lemmas -/

/-- The `terminals` and `operations` sets are disjoint. -/
theorem terminal_not_operation :
    ∀ o : ExprTreeOp, isTerminalOp o = true → isOperationOp o = false := by
  decide

/-- `ETO_INTERM` is a terminal kind. -/
theorem interm_is_terminal : isTerminalOp ExprTreeOp.ETO_INTERM = true := by
  decide

/-- The visit loop of the RPN conversion produces the concatenated
per-tree visit orders. -/
theorem rpnVisit_eq (stack acc : List ExprTree) :
    rpnVisit stack acc = acc ++ (stack.map preVisit).flatten := by
  induction stack, acc using rpnVisit.induct with
  | case1 acc => simp [rpnVisit]
  | case2 rest acc d ih => simp [rpnVisit, ih, preVisit]
  | case3 rest acc d c0 c1 hop ih => simp [rpnVisit, hop, ih, preVisit]
  | case4 rest acc d c0 c1 hop ih => simp [rpnVisit, hop, ih, preVisit]

/-- Reversing the visit order gives postfix order. -/
theorem preVisit_reverse (t : ExprTree) :
    (preVisit t).reverse = postfixList t := by
  induction t with
  | leaf d => simp [preVisit, postfixList]
  | node d c0 c1 ih0 ih1 =>
    by_cases h : isOperationOp d.op
    · simp [preVisit, postfixList, h, ih0, ih1]
    · simp [preVisit, postfixList, h]

/-- The RPN conversion of `evaluateExpressionTree` produces the postfix
listing: `children[0]` subtree, `children[1]` subtree, node. -/
theorem toRPN_eq_postfixList (t : ExprTree) : toRPN t = postfixList t := by
  unfold toRPN
  rw [rpnVisit_eq]
  simp [preVisit_reverse]

/-- Concrete evaluation over the postfix listing. -/
theorem evaluateExpressionTree_post (env : KernelEnv) (t : ExprTree) :
    evaluateExpressionTree env t = evaluateRPN env (postfixList t) := by
  unfold evaluateExpressionTree
  rw [toRPN_eq_postfixList]

/-- `getActualHostValueForLiterals` returns a C++ `unsigned`, i.e. a
value below `2^32`. -/
theorem getActualHostValueForLiterals_lt (env : KernelEnv) (d : NodeData) :
    getActualHostValueForLiterals env d < M32 := by
  unfold getActualHostValueForLiterals u32 toU32
  have hM : (0 : Int) < (M32 : Int) := by unfold M32; omega
  split_ifs <;> try (unfold M32 at *; omega)
  all_goals (repeat' split) <;> (unfold M32 at *; omega)

/-- `getMaxValueForLiterals` returns a C++ `unsigned`. -/
theorem getMaxValueForLiterals_lt (env : KernelEnv) (LoopArg loopid : Nat)
    (d : NodeData) : getMaxValueForLiterals env LoopArg loopid d < M32 := by
  have h := getActualHostValueForLiterals_lt env d
  unfold getMaxValueForLiterals u32sub u32
  split_ifs <;> try (unfold M32 at *; omega)
  all_goals (repeat' split) <;> (unfold M32 at *; omega)

/-- `getMinValueForLiterals` returns a C++ `unsigned`. -/
theorem getMinValueForLiterals_lt (env : KernelEnv) (LoopArg loopid : Nat)
    (d : NodeData) : getMinValueForLiterals env LoopArg loopid d < M32 := by
  have h := getActualHostValueForLiterals_lt env d
  unfold getMinValueForLiterals u32
  split_ifs <;> (unfold M32 at *; omega)

/-- Max-mode resolution reads the `value` payload only for
`ETO_INTERM` nodes. -/
theorem getMaxValueForLiterals_value_update (env : KernelEnv)
    (LoopArg loopid : Nat) (d : NodeData) (v : Nat) :
    getMaxValueForLiterals env LoopArg loopid { d with value := v } =
      if d.op == ExprTreeOp.ETO_INTERM then u32 v
      else getMaxValueForLiterals env LoopArg loopid d := by
  cases d with
  | mk op str arg value =>
    cases op <;>
      simp [getMaxValueForLiterals, getActualHostValueForLiterals]

/-- Min-mode resolution reads the `value` payload only for
`ETO_INTERM` nodes. -/
theorem getMinValueForLiterals_value_update (env : KernelEnv)
    (LoopArg loopid : Nat) (d : NodeData) (v : Nat) :
    getMinValueForLiterals env LoopArg loopid { d with value := v } =
      if d.op == ExprTreeOp.ETO_INTERM then u32 v
      else getMinValueForLiterals env LoopArg loopid d := by
  cases d with
  | mk op str arg value =>
    cases op <;>
      simp [getMinValueForLiterals, getActualHostValueForLiterals]

/-- Resolving the stack node the max machine leaves for a subtree gives
its structural value truncated to `unsigned`. -/
theorem getMax_machineResMax (env : KernelEnv) (LoopArg loopid : Nat)
    (c : ExprTree) :
    getMaxValueForLiterals env LoopArg loopid
        (machineResMax env LoopArg loopid c) =
      u32 (evalMaxStruct env LoopArg loopid c) := by
  cases c with
  | leaf d =>
    rw [show machineResMax env LoopArg loopid (.leaf d) =
        { d with value := getMaxValueForLiterals env LoopArg loopid d } from rfl]
    rw [getMaxValueForLiterals_value_update]
    by_cases hI : d.op == ExprTreeOp.ETO_INTERM
    · simp [hI, evalMaxStruct]
    · simp [hI, evalMaxStruct]
      have := getMaxValueForLiterals_lt env LoopArg loopid d
      unfold u32 M32 at this ⊢
      omega
  | node d c0 c1 =>
    simp [machineResMax, mkInterm, getMaxValueForLiterals,
      getActualHostValueForLiterals, evalMaxStruct]

/-- Resolving the stack node the min machine leaves for a subtree gives
its structural value truncated to `unsigned`. -/
theorem getMin_machineResMin (env : KernelEnv) (LoopArg loopid : Nat)
    (c : ExprTree) :
    getMinValueForLiterals env LoopArg loopid
        (machineResMin env LoopArg loopid c) =
      u32 (evalMinStruct env LoopArg loopid c) := by
  cases c with
  | leaf d =>
    rw [show machineResMin env LoopArg loopid (.leaf d) =
        { d with value := getMinValueForLiterals env LoopArg loopid d } from rfl]
    rw [getMinValueForLiterals_value_update]
    by_cases hI : d.op == ExprTreeOp.ETO_INTERM
    · simp [hI, evalMinStruct]
    · simp [hI, evalMinStruct]
      have := getMinValueForLiterals_lt env LoopArg loopid d
      unfold u32 M32 at this ⊢
      omega
  | node d c0 c1 =>
    simp [machineResMin, mkInterm, getMinValueForLiterals,
      getActualHostValueForLiterals, evalMinStruct]

/-- The stack node left for a well-formed subtree is terminal-kind. -/
theorem machineResMax_terminal (env : KernelEnv) (LoopArg loopid : Nat)
    (c : ExprTree) (h : wellFormed c = true) :
    isTerminalOp (machineResMax env LoopArg loopid c).op = true := by
  cases c with
  | leaf d =>
    simp only [wellFormed] at h
    simpa [machineResMax] using h
  | node d c0 c1 => simp [machineResMax, mkInterm, isTerminalOp, terminals]

/-- The stack node left for a well-formed subtree is terminal-kind. -/
theorem machineResMin_terminal (env : KernelEnv) (LoopArg loopid : Nat)
    (c : ExprTree) (h : wellFormed c = true) :
    isTerminalOp (machineResMin env LoopArg loopid c).op = true := by
  cases c with
  | leaf d =>
    simp only [wellFormed] at h
    simpa [machineResMin] using h
  | node d c0 c1 => simp [machineResMin, mkInterm, isTerminalOp, terminals]

/-- Running the max machine over the postfix listing of a well-formed
subtree reduces it to its machine result on the stack. -/
theorem maxGo_bridge (env : KernelEnv) (LoopArg loopid : Nat) :
    ∀ (t : ExprTree), wellFormed t = true → ∀ (rest : List ExprTree)
      (stack : List NodeData),
      evaluateRPNforMaxGo env LoopArg loopid (postfixList t ++ rest) stack =
        evaluateRPNforMaxGo env LoopArg loopid rest
          (machineResMax env LoopArg loopid t :: stack) := by
  intro t
  induction t with
  | leaf d =>
    intro hWF rest stack
    simp only [wellFormed] at hWF
    have hop := terminal_not_operation d.op hWF
    simp [postfixList, evaluateRPNforMaxGo, ExprTree.data, hop, machineResMax]
  | node d c0 c1 ih0 ih1 =>
    intro hWF rest stack
    simp only [wellFormed, Bool.and_eq_true] at hWF
    obtain ⟨⟨hop, h0⟩, h1⟩ := hWF
    rw [show postfixList (.node d c0 c1) =
        postfixList c0 ++ postfixList c1 ++ [ExprTree.node d c0 c1] by
      simp [postfixList, hop]]
    rw [List.append_assoc, List.append_assoc, ih0 h0, ih1 h1]
    rw [show ([ExprTree.node d c0 c1] ++ rest) = ExprTree.node d c0 c1 :: rest
      from rfl]
    rw [evaluateRPNforMaxGo]
    simp only [ExprTree.data, hop, if_pos,
      machineResMax_terminal env LoopArg loopid c0 h0,
      machineResMax_terminal env LoopArg loopid c1 h1, Bool.and_self,
      if_true]
    congr 1
    rw [show operateMax env LoopArg loopid d
        (machineResMax env LoopArg loopid c1)
        (machineResMax env LoopArg loopid c0) =
      mkInterm (maxCombine d.op
        (getMaxValueForLiterals env LoopArg loopid
          (machineResMax env LoopArg loopid c1))
        (getMaxValueForLiterals env LoopArg loopid
          (machineResMax env LoopArg loopid c0))) from rfl]
    rw [getMax_machineResMax, getMax_machineResMax]
    simp [machineResMax, mkInterm, evalMaxStruct, hop]

/-- Running the min machine over the postfix listing of a well-formed
subtree reduces it to its machine result on the stack. -/
theorem minGo_bridge (env : KernelEnv) (LoopArg loopid : Nat) :
    ∀ (t : ExprTree), wellFormed t = true → ∀ (rest : List ExprTree)
      (stack : List NodeData),
      evaluateRPNforMinGo env LoopArg loopid (postfixList t ++ rest) stack =
        evaluateRPNforMinGo env LoopArg loopid rest
          (machineResMin env LoopArg loopid t :: stack) := by
  intro t
  induction t with
  | leaf d =>
    intro hWF rest stack
    simp only [wellFormed] at hWF
    have hop := terminal_not_operation d.op hWF
    simp [postfixList, evaluateRPNforMinGo, ExprTree.data, hop, machineResMin]
  | node d c0 c1 ih0 ih1 =>
    intro hWF rest stack
    simp only [wellFormed, Bool.and_eq_true] at hWF
    obtain ⟨⟨hop, h0⟩, h1⟩ := hWF
    rw [show postfixList (.node d c0 c1) =
        postfixList c0 ++ postfixList c1 ++ [ExprTree.node d c0 c1] by
      simp [postfixList, hop]]
    rw [List.append_assoc, List.append_assoc, ih0 h0, ih1 h1]
    rw [show ([ExprTree.node d c0 c1] ++ rest) = ExprTree.node d c0 c1 :: rest
      from rfl]
    rw [evaluateRPNforMinGo]
    simp only [ExprTree.data, hop, if_pos,
      machineResMin_terminal env LoopArg loopid c0 h0,
      machineResMin_terminal env LoopArg loopid c1 h1, Bool.and_self,
      if_true]
    congr 1
    rw [show operateMin env LoopArg loopid d
        (machineResMin env LoopArg loopid c1)
        (machineResMin env LoopArg loopid c0) =
      mkInterm (minCombine d.op
        (getMinValueForLiterals env LoopArg loopid
          (machineResMin env LoopArg loopid c1))
        (getMinValueForLiterals env LoopArg loopid
          (machineResMin env LoopArg loopid c0))) from rfl]
    rw [getMin_machineResMin, getMin_machineResMin]
    simp [machineResMin, mkInterm, evalMinStruct, hop]

/-- On well-formed trees the max-mode machine computes the structural
max evaluation. -/
theorem evaluateTreeForMax_eq_struct (env : KernelEnv) (LoopArg loopid : Nat)
    (t : ExprTree) (h : wellFormed t = true) :
    evaluateTreeForMax env LoopArg loopid t =
      evalMaxStruct env LoopArg loopid t := by
  unfold evaluateTreeForMax evaluateRPNforMax
  rw [toRPN_eq_postfixList, show postfixList t = postfixList t ++ [] by simp,
    maxGo_bridge env LoopArg loopid t h [] []]
  cases t with
  | leaf d => simp [evaluateRPNforMaxGo, machineResMax, evalMaxStruct]
  | node d c0 c1 => simp [evaluateRPNforMaxGo, machineResMax, mkInterm]

/-- On well-formed trees the min-mode machine computes the structural
min evaluation. -/
theorem evaluateTreeForMin_eq_struct (env : KernelEnv) (LoopArg loopid : Nat)
    (t : ExprTree) (h : wellFormed t = true) :
    evaluateTreeForMin env LoopArg loopid t =
      evalMinStruct env LoopArg loopid t := by
  unfold evaluateTreeForMin evaluateRPNforMin
  rw [toRPN_eq_postfixList, show postfixList t = postfixList t ++ [] by simp,
    minGo_bridge env LoopArg loopid t h [] []]
  cases t with
  | leaf d => simp [evaluateRPNforMinGo, machineResMin, evalMinStruct]
  | node d c0 c1 => simp [evaluateRPNforMinGo, machineResMin, mkInterm]

/-- Every tree is among its own subtrees. -/
theorem subtrees_self (t : ExprTree) : t ∈ t.subtrees := by
  cases t <;> simp [ExprTree.subtrees]

/-- Subtree membership is transitive. -/
theorem subtrees_trans :
    ∀ (t c s : ExprTree), c ∈ t.subtrees → s ∈ c.subtrees → s ∈ t.subtrees := by
  intro t
  induction t with
  | leaf d =>
    intro c s hc hs
    simp [ExprTree.subtrees] at hc
    subst hc
    exact hs
  | node d c0 c1 ih0 ih1 =>
    intro c s hc hs
    simp only [ExprTree.subtrees, List.mem_cons, List.mem_append] at hc ⊢
    rcases hc with hc | hc | hc
    · subst hc
      simpa [ExprTree.subtrees] using hs
    · exact Or.inr (Or.inl (ih0 c s hc hs))
    · exact Or.inr (Or.inr (ih1 c s hc hs))

/-- Well-formedness is inherited by subtrees. -/
theorem wellFormed_subtree :
    ∀ (t s : ExprTree), wellFormed t = true → s ∈ t.subtrees →
      wellFormed s = true := by
  intro t
  induction t with
  | leaf d =>
    intro s hWF hs
    simp [ExprTree.subtrees] at hs
    subst hs
    exact hWF
  | node d c0 c1 ih0 ih1 =>
    intro s hWF hs
    simp only [wellFormed, Bool.and_eq_true] at hWF
    obtain ⟨⟨hop, h0⟩, h1⟩ := hWF
    simp only [ExprTree.subtrees, List.mem_cons, List.mem_append] at hs
    rcases hs with hs | hs | hs
    · subst hs
      simp [wellFormed, hop, h0, h1]
    · exact ih0 s h0 hs
    · exact ih1 s h1 hs

/-- Pointwise monotonicity of the ideal-arithmetic operator reductions:
min-mode below max-mode. -/
theorem combineRaw_mono (op : ExprTreeOp) {a1 a2 b1 b2 : Nat}
    (h1 : a2 ≤ a1) (h2 : b2 ≤ b1) :
    minCombineRaw op a2 b2 ≤ maxCombineRaw op a1 b1 := by
  cases op <;> simp [minCombineRaw, maxCombineRaw] <;>
    first
      | omega
      | exact Nat.mul_le_mul h1 (Nat.pow_le_pow_right (by omega) h2)
      | exact Nat.mul_le_mul h1 h2
      | (split_ifs <;> omega)

/-- In ideal arithmetic, max-mode evaluation dominates min-mode
evaluation whenever every terminal's max resolution dominates its min
resolution. -/
theorem evalRaw_mono (env : KernelEnv) (LoopArg loopid : Nat) :
    ∀ (t : ExprTree), wellFormed t = true →
      (∀ s ∈ t.subtrees, s.childCount = 0 →
        getMinValueForLiterals env LoopArg loopid s.data ≤
          getMaxValueForLiterals env LoopArg loopid s.data) →
      evalMinRaw env LoopArg loopid t ≤ evalMaxRaw env LoopArg loopid t := by
  intro t
  induction t with
  | leaf d =>
    intro _ hleaf
    simpa [evalMinRaw, evalMaxRaw, ExprTree.data] using
      hleaf (.leaf d) (subtrees_self _) rfl
  | node d c0 c1 ih0 ih1 =>
    intro hWF hleaf
    simp only [wellFormed, Bool.and_eq_true] at hWF
    obtain ⟨⟨hop, h0⟩, h1⟩ := hWF
    have m0 := ih0 h0 (fun s hs h => hleaf s
      (by simp only [ExprTree.subtrees, List.mem_cons, List.mem_append]
          exact Or.inr (Or.inl hs)) h)
    have m1 := ih1 h1 (fun s hs h => hleaf s
      (by simp only [ExprTree.subtrees, List.mem_cons, List.mem_append]
          exact Or.inr (Or.inr hs)) h)
    simp only [evalMinRaw, evalMaxRaw, hop, if_true]
    exact combineRaw_mono d.op m1 m0

/-- When the ideal result of one max-mode reduction stays below `2^32`,
the 64-bit machine reduction agrees with it. -/
theorem maxCombine_eq_raw (op : ExprTreeOp) (v1 v0 : Nat)
    (bt : maxCombineRaw op v1 v0 < M32) :
    maxCombine op v1 v0 = maxCombineRaw op v1 v0 := by
  cases op <;>
    first
      | rfl
      | (show u64 (v1 + v0) = v1 + v0
         have bt2 : v1 + v0 < M32 := bt
         unfold u64 M64 M32 at *
         omega)
      | (show u64 (v1 * v0) = v1 * v0
         have bt2 : v1 * v0 < M32 := bt
         unfold u64 M64 M32 at *
         omega)
      | (show u64 (v1 * 2 ^ v0) = v1 * 2 ^ v0
         have bt2 : v1 * 2 ^ v0 < M32 := bt
         unfold u64 M64 M32 at *
         omega)

/-- When the ideal result of one min-mode reduction stays below `2^32`,
the 64-bit machine reduction agrees with it. -/
theorem minCombine_eq_raw (op : ExprTreeOp) (v1 v0 : Nat)
    (bt : minCombineRaw op v1 v0 < M32) :
    minCombine op v1 v0 = minCombineRaw op v1 v0 := by
  cases op <;>
    first
      | rfl
      | (show u64 (v1 + v0) = v1 + v0
         have bt2 : v1 + v0 < M32 := bt
         unfold u64 M64 M32 at *
         omega)
      | (show u64 (v1 * v0) = v1 * v0
         have bt2 : v1 * v0 < M32 := bt
         unfold u64 M64 M32 at *
         omega)
      | (show u64 (v1 * 2 ^ v0) = v1 * 2 ^ v0
         have bt2 : v1 * 2 ^ v0 < M32 := bt
         unfold u64 M64 M32 at *
         omega)

/-- When no intermediate max-mode value reaches `2^32`, the machine
arithmetic of max-mode evaluation agrees with ideal arithmetic. -/
theorem evalMaxStruct_eq_raw (env : KernelEnv) (LoopArg loopid : Nat) :
    ∀ (t : ExprTree), wellFormed t = true →
      (∀ s ∈ t.subtrees, evalMaxRaw env LoopArg loopid s < M32) →
      evalMaxStruct env LoopArg loopid t = evalMaxRaw env LoopArg loopid t := by
  intro t
  induction t with
  | leaf d => intro _ _; simp [evalMaxStruct, evalMaxRaw]
  | node d c0 c1 ih0 ih1 =>
    intro hWF hb
    simp only [wellFormed, Bool.and_eq_true] at hWF
    obtain ⟨⟨hop, h0⟩, h1⟩ := hWF
    have sub0 : ∀ s ∈ c0.subtrees, s ∈ (ExprTree.node d c0 c1).subtrees := by
      intro s hs
      simp only [ExprTree.subtrees, List.mem_cons, List.mem_append]
      exact Or.inr (Or.inl hs)
    have sub1 : ∀ s ∈ c1.subtrees, s ∈ (ExprTree.node d c0 c1).subtrees := by
      intro s hs
      simp only [ExprTree.subtrees, List.mem_cons, List.mem_append]
      exact Or.inr (Or.inr hs)
    have e0 := ih0 h0 (fun s hs => hb s (sub0 s hs))
    have e1 := ih1 h1 (fun s hs => hb s (sub1 s hs))
    have b0 : evalMaxRaw env LoopArg loopid c0 < M32 :=
      hb c0 (sub0 c0 (subtrees_self c0))
    have b1 : evalMaxRaw env LoopArg loopid c1 < M32 :=
      hb c1 (sub1 c1 (subtrees_self c1))
    have bt : evalMaxRaw env LoopArg loopid (.node d c0 c1) < M32 :=
      hb _ (subtrees_self _)
    simp only [evalMaxRaw, hop, if_true] at bt
    simp only [evalMaxStruct, evalMaxRaw, hop, if_true, e0, e1]
    rw [show u32 (evalMaxRaw env LoopArg loopid c1) =
        evalMaxRaw env LoopArg loopid c1 from by unfold u32 M32 at *; omega]
    rw [show u32 (evalMaxRaw env LoopArg loopid c0) =
        evalMaxRaw env LoopArg loopid c0 from by unfold u32 M32 at *; omega]
    exact maxCombine_eq_raw d.op _ _ bt

/-- When no intermediate min-mode value reaches `2^32`, the machine
arithmetic of min-mode evaluation agrees with ideal arithmetic. -/
theorem evalMinStruct_eq_raw (env : KernelEnv) (LoopArg loopid : Nat) :
    ∀ (t : ExprTree), wellFormed t = true →
      (∀ s ∈ t.subtrees, evalMinRaw env LoopArg loopid s < M32) →
      evalMinStruct env LoopArg loopid t = evalMinRaw env LoopArg loopid t := by
  intro t
  induction t with
  | leaf d => intro _ _; simp [evalMinStruct, evalMinRaw]
  | node d c0 c1 ih0 ih1 =>
    intro hWF hb
    simp only [wellFormed, Bool.and_eq_true] at hWF
    obtain ⟨⟨hop, h0⟩, h1⟩ := hWF
    have sub0 : ∀ s ∈ c0.subtrees, s ∈ (ExprTree.node d c0 c1).subtrees := by
      intro s hs
      simp only [ExprTree.subtrees, List.mem_cons, List.mem_append]
      exact Or.inr (Or.inl hs)
    have sub1 : ∀ s ∈ c1.subtrees, s ∈ (ExprTree.node d c0 c1).subtrees := by
      intro s hs
      simp only [ExprTree.subtrees, List.mem_cons, List.mem_append]
      exact Or.inr (Or.inr hs)
    have e0 := ih0 h0 (fun s hs => hb s (sub0 s hs))
    have e1 := ih1 h1 (fun s hs => hb s (sub1 s hs))
    have b0 : evalMinRaw env LoopArg loopid c0 < M32 :=
      hb c0 (sub0 c0 (subtrees_self c0))
    have b1 : evalMinRaw env LoopArg loopid c1 < M32 :=
      hb c1 (sub1 c1 (subtrees_self c1))
    have bt : evalMinRaw env LoopArg loopid (.node d c0 c1) < M32 :=
      hb _ (subtrees_self _)
    simp only [evalMinRaw, hop, if_true] at bt
    simp only [evalMinStruct, evalMinRaw, hop, if_true, e0, e1]
    rw [show u32 (evalMinRaw env LoopArg loopid c1) =
        evalMinRaw env LoopArg loopid c1 from by unfold u32 M32 at *; omega]
    rw [show u32 (evalMinRaw env LoopArg loopid c0) =
        evalMinRaw env LoopArg loopid c0 from by unfold u32 M32 at *; omega]
    exact minCombine_eq_raw d.op _ _ bt

/-- Truncating a 64-bit reduction of a signed parse to 32 bits equals
the direct 32-bit reduction. -/
theorem u32_toU64 (i : Int) : u32 (toU64 i) = toU32 i := by
  unfold u32 toU64 toU32 M64 M32
  omega

/-- An emitted value denotes below `2^width`. -/
theorem denote_lt (x : IRVal) : x.denote < 2 ^ x.width := by
  induction x with
  | intConst w v =>
    simp only [IRVal.denote, IRVal.width]
    exact Nat.mod_lt _ (Nat.pos_pow_of_pos w (by omega))
  | sext3264 y ih =>
    simp only [IRVal.denote, IRVal.width]
    unfold u32 M32 M64
    split_ifs <;> omega
  | binop op a b iha ihb =>
    simp only [IRVal.denote, IRVal.width]
    have hm : 0 < 2 ^ a.width := Nat.pos_pow_of_pos _ (by omega)
    split_ifs <;>
      first
        | exact Nat.mod_lt _ hm
        | exact lt_of_le_of_lt (Nat.div_le_self _ _) iha
        | omega

/-- Sign extension of a small (in-`int`-range) 32-bit value preserves
its denotation. -/
theorem sext_denote_small (x : IRVal) (hw : x.width = 32)
    (hv : x.denote < 2 ^ 31) : (IRVal.sext3264 x).denote = x.denote := by
  have := denote_lt x
  rw [hw] at this
  simp only [IRVal.denote]
  unfold u32 M32 M64
  split_ifs <;> omega

/-- Sign extension does not introduce multiplies. -/
theorem allMulOperands64_sext (x : IRVal) :
    allMulOperands64 (IRVal.sext3264 x) = allMulOperands64 x := by
  simp [allMulOperands64]

/-- `insertCodeToMultiplyInt64` on values that are either 64-bit or
32-bit-and-in-`int`-range: the result is a 64-bit multiply of the two
denotations, with both operands promoted to 64 bits. -/
theorem multiplyInt64_spec (a b : IRVal)
    (ha : a.width = 32 ∧ a.denote < 2 ^ 31 ∨ a.width = 64)
    (hb : b.width = 32 ∧ b.denote < 2 ^ 31 ∨ b.width = 64) :
    (insertCodeToMultiplyInt64 a b).width = 64 ∧
    (insertCodeToMultiplyInt64 a b).denote = (a.denote * b.denote) % M64 ∧
    (allMulOperands64 a = true → allMulOperands64 b = true →
      allMulOperands64 (insertCodeToMultiplyInt64 a b) = true) := by
  have dm : ∀ x y : IRVal, (IRVal.binop ExprTreeOp.ETO_MUL x y).denote =
      (x.denote * y.denote) % 2 ^ x.width := fun _ _ => rfl
  have amul : ∀ x y : IRVal, x.width = 64 → y.width = 64 →
      allMulOperands64 x = true → allMulOperands64 y = true →
      allMulOperands64 (IRVal.binop ExprTreeOp.ETO_MUL x y) = true := by
    intro x y hx hy h1 h2
    simp [allMulOperands64, hx, hy, h1, h2]
  rcases ha with ⟨hw, hv⟩ | hw <;> rcases hb with ⟨hw2, hv2⟩ | hw2
  · have r : insertCodeToMultiplyInt64 a b =
        IRVal.binop ExprTreeOp.ETO_MUL (IRVal.sext3264 a) (IRVal.sext3264 b) := by
      unfold insertCodeToMultiplyInt64
      simp [hw, hw2]
    rw [r]
    refine ⟨rfl, ?_, ?_⟩
    · rw [dm, sext_denote_small a hw hv, sext_denote_small b hw2 hv2]
      rfl
    · intro h1 h2
      exact amul _ _ rfl rfl (by simpa [allMulOperands64_sext] using h1)
        (by simpa [allMulOperands64_sext] using h2)
  · have r : insertCodeToMultiplyInt64 a b =
        IRVal.binop ExprTreeOp.ETO_MUL (IRVal.sext3264 a) b := by
      unfold insertCodeToMultiplyInt64
      simp [hw, hw2]
    rw [r]
    refine ⟨rfl, ?_, ?_⟩
    · rw [dm, sext_denote_small a hw hv]
      rfl
    · intro h1 h2
      exact amul _ _ rfl hw2 (by simpa [allMulOperands64_sext] using h1) h2
  · have r : insertCodeToMultiplyInt64 a b =
        IRVal.binop ExprTreeOp.ETO_MUL a (IRVal.sext3264 b) := by
      unfold insertCodeToMultiplyInt64
      simp [hw, hw2]
    rw [r]
    refine ⟨hw, ?_, ?_⟩
    · rw [dm, sext_denote_small b hw2 hv2, hw]
      rfl
    · intro h1 h2
      exact amul _ _ hw rfl h1 (by simpa [allMulOperands64_sext] using h2)
  · have r : insertCodeToMultiplyInt64 a b =
        IRVal.binop ExprTreeOp.ETO_MUL a b := by
      unfold insertCodeToMultiplyInt64
      simp [hw, hw2]
    rw [r]
    refine ⟨hw, ?_, ?_⟩
    · rw [dm, hw]
      rfl
    · intro h1 h2
      exact amul _ _ hw hw2 h1 h2

/-- The `operations` and `terminals` sets are disjoint (converse
direction). -/
theorem operation_not_terminal :
    ∀ o : ExprTreeOp, isOperationOp o = true → isTerminalOp o = false := by
  decide

/-- The parent-chain walk multiplies the per-loop iteration values into
the accumulator: given the chain of parents and well-typed map entries,
the emitted value is 64-bit, denotes the product modulo `2^64`, and has
all multiplies promoted to 64 bits. -/
theorem nestedItersWalk_spec (parentMap : Nat → Nat)
    (itersMap : Nat → Option IRVal) (vals : Nat → IRVal) :
    ∀ (ps : List Nat) (fuel lid : Nat) (acc : IRVal),
      parentChain parentMap fuel lid = some ps →
      (∀ p ∈ ps, itersMap p = some (vals p) ∧
        ((vals p).width = 32 ∧ (vals p).denote < 2 ^ 31 ∨ (vals p).width = 64)) →
      acc.width = 64 →
      ∃ r, nestedItersWalk parentMap itersMap fuel lid acc = some r ∧
        r.width = 64 ∧
        r.denote =
          (acc.denote * (ps.map (fun p => (vals p).denote)).prod) % M64 ∧
        (allMulOperands64 acc = true →
          (∀ p ∈ ps, allMulOperands64 (vals p) = true) →
          allMulOperands64 r = true) := by
  intro ps
  induction ps with
  | nil =>
    intro fuel lid acc hchain hvals hacc
    by_cases h0 : (parentMap lid == 0) = true
    · refine ⟨acc, ?_, hacc, ?_, fun h _ => h⟩
      · rw [nestedItersWalk.eq_def]
        simp [h0]
      · have := denote_lt acc
        rw [hacc] at this
        simp only [List.map_nil, List.prod_nil, Nat.mul_one]
        unfold M64 at *
        omega
    · exfalso
      rw [parentChain.eq_def] at hchain
      cases fuel with
      | zero => simp [h0] at hchain
      | succ f => simp [h0] at hchain
  | cons p ps ih =>
    intro fuel lid acc hchain hvals hacc
    rw [parentChain.eq_def] at hchain
    by_cases h0 : (parentMap lid == 0) = true
    · cases fuel with
      | zero => simp [h0] at hchain
      | succ f => simp [h0] at hchain
    · cases fuel with
      | zero => simp [h0] at hchain
      | succ f =>
        simp only [h0, Bool.false_eq_true, if_false] at hchain
        cases hc : parentChain parentMap f (parentMap lid) with
        | none => rw [hc] at hchain; simp at hchain
        | some qs =>
          rw [hc] at hchain
          simp only [Option.map_some', Option.some.injEq, List.cons.injEq]
            at hchain
          obtain ⟨hp, rfl⟩ := hchain
          have hmem : p ∈ p :: qs := by simp
          have hit := (hvals p hmem).1
          have hvp := (hvals p hmem).2
          obtain ⟨hwm, hdm, ham⟩ :=
            multiplyInt64_spec acc (vals p) (Or.inr hacc) hvp
          obtain ⟨r, hr, hrw, hrd, hra⟩ :=
            ih f (parentMap lid)
              (insertCodeToMultiplyInt64 acc (vals p))
              hc
              (fun q hq => hvals q (by simp [hq]))
              hwm
          refine ⟨r, ?_, hrw, ?_, ?_⟩
          · rw [nestedItersWalk.eq_def]
            simp only [h0, Bool.false_eq_true, if_false]
            rw [show parentMap lid = p from hp]
            rw [hit]
            rw [show parentMap lid = p from hp] at hr
            exact hr
          · rw [hrd, hdm]
            rw [Nat.mod_mul_mod]
            rw [List.map_cons, List.prod_cons, ← Nat.mul_assoc]
          · intro haccA hvalsA
            exact hra (ham haccA (hvalsA p hmem))
              (fun q hq => hvalsA q (by simp [hq]))

/-- The trees on the builder stack and the final result satisfy the
two-or-zero children invariant. -/
theorem buildFromRPNNodes_shape :
    ∀ (nodes : List NodeData) (stack : List ExprTree) (flag : Bool),
      (∀ t ∈ stack, TreeShapeOk t) →
      ∀ r, buildFromRPNNodes nodes stack flag = some r → TreeShapeOk r := by
  intro nodes
  induction nodes with
  | nil =>
    intro stack flag hstack r hr
    cases stack with
    | nil => simp [buildFromRPNNodes] at hr
    | cons h t =>
      simp [buildFromRPNNodes] at hr
      subst hr
      exact hstack _ (by simp)
  | cons d rest ih =>
    intro stack flag hstack r hr
    by_cases hphi : isPhiNodeOp d.op = true
    · have hdop : d.op = ExprTreeOp.ETO_PHI := by
        simpa [isPhiNodeOp] using hphi
      cases flag with
      | false =>
        have e : buildFromRPNNodes (d :: rest) stack false =
            buildFromRPNNodes rest
              (ExprTree.leaf { d with op := ExprTreeOp.ETO_PHI_TERM } :: stack)
              true := by
          conv_lhs => rw [buildFromRPNNodes.eq_def]
          simp [hphi]
        rw [e] at hr
        refine ih _ _ ?_ r hr
        intro t ht
        rcases List.mem_cons.mp ht with ht | ht
        · subst ht
          intro s hs
          simp only [ExprTree.subtrees, List.mem_singleton] at hs
          subst hs
          refine ⟨fun hOp => ?_, fun _ => rfl⟩
          rw [show (ExprTree.leaf { d with op := ExprTreeOp.ETO_PHI_TERM
            }).data.op = ExprTreeOp.ETO_PHI_TERM from rfl] at hOp
          exact absurd hOp (by decide)
        · exact hstack t ht
      | true =>
        cases stack with
        | nil =>
          have e : buildFromRPNNodes (d :: rest) [] true = none := by
            conv_lhs => rw [buildFromRPNNodes.eq_def]
            simp [hphi]
          rw [e] at hr
          cases hr
        | cons c1 s1 =>
          cases s1 with
          | nil =>
            have e : buildFromRPNNodes (d :: rest) [c1] true = none := by
              conv_lhs => rw [buildFromRPNNodes.eq_def]
              simp [hphi]
            rw [e] at hr
            cases hr
          | cons c2 s2 =>
            have e : buildFromRPNNodes (d :: rest) (c1 :: c2 :: s2) true =
                buildFromRPNNodes rest (ExprTree.node d c1 c2 :: s2) false := by
              conv_lhs => rw [buildFromRPNNodes.eq_def]
              simp [hphi]
            rw [e] at hr
            refine ih _ _ ?_ r hr
            intro t ht
            rcases List.mem_cons.mp ht with ht | ht
            · subst ht
              intro s hs
              simp only [ExprTree.subtrees, List.mem_cons,
                List.mem_append] at hs
              rcases hs with hs | hs | hs
              · subst hs
                refine ⟨fun _ => rfl, fun hT => ?_⟩
                rw [show (ExprTree.node d c1 c2).data.op = d.op from rfl,
                  hdop] at hT
                exact absurd hT (by decide)
              · exact hstack c1 (by simp) s hs
              · exact hstack c2 (by simp) s hs
            · exact hstack t (by simp [ht])
    · by_cases hop : isOperationOp d.op = true
      · cases stack with
        | nil =>
          have e : buildFromRPNNodes (d :: rest) [] flag = none := by
            conv_lhs => rw [buildFromRPNNodes.eq_def]
            simp [hphi, hop]
          rw [e] at hr
          cases hr
        | cons c1 s1 =>
          cases s1 with
          | nil =>
            have e : buildFromRPNNodes (d :: rest) [c1] flag = none := by
              conv_lhs => rw [buildFromRPNNodes.eq_def]
              simp [hphi, hop]
            rw [e] at hr
            cases hr
          | cons c2 s2 =>
            have e : buildFromRPNNodes (d :: rest) (c1 :: c2 :: s2) flag =
                buildFromRPNNodes rest (ExprTree.node d c1 c2 :: s2) flag := by
              conv_lhs => rw [buildFromRPNNodes.eq_def]
              simp [hphi, hop]
            rw [e] at hr
            refine ih _ _ ?_ r hr
            intro t ht
            rcases List.mem_cons.mp ht with ht | ht
            · subst ht
              intro s hs
              simp only [ExprTree.subtrees, List.mem_cons,
                List.mem_append] at hs
              rcases hs with hs | hs | hs
              · subst hs
                refine ⟨fun _ => rfl, fun hT => ?_⟩
                rw [show (ExprTree.node d c1 c2).data.op = d.op from rfl,
                  operation_not_terminal d.op hop] at hT
                simp at hT
              · exact hstack c1 (by simp) s hs
              · exact hstack c2 (by simp) s hs
            · exact hstack t (by simp [ht])
      · have e : buildFromRPNNodes (d :: rest) stack flag =
            buildFromRPNNodes rest (ExprTree.leaf d :: stack) flag := by
          conv_lhs => rw [buildFromRPNNodes.eq_def]
          simp [hphi, hop]
        rw [e] at hr
        refine ih _ _ ?_ r hr
        intro t ht
        rcases List.mem_cons.mp ht with ht | ht
        · subst ht
          intro s hs
          simp only [ExprTree.subtrees, List.mem_singleton] at hs
          subst hs
          refine ⟨fun hOp => ?_, fun _ => rfl⟩
          rw [show (ExprTree.leaf d).data.op = d.op from rfl] at hOp
          exact absurd hOp hop
        · exact hstack t ht

/-- Every tree `createExpressionTree` returns satisfies the
two-or-zero children invariant (including the sentinel nodes). -/
theorem createExpressionTree_shape (ts : List String) (r : ExprTree)
    (h : createExpressionTree ts = some r) : TreeShapeOk r := by
  have hpc : TreeShapeOk pcSentinel := by
    intro s hs
    simp only [pcSentinel, ExprTree.subtrees, List.mem_singleton] at hs
    subst hs
    exact ⟨fun hOp => absurd hOp (by decide), fun _ => rfl⟩
  have hinc : TreeShapeOk incompSentinel := by
    intro s hs
    simp only [incompSentinel, ExprTree.subtrees, List.mem_singleton] at hs
    subst hs
    exact ⟨fun hOp => absurd hOp (by decide), fun _ => rfl⟩
  unfold createExpressionTree at h
  dsimp only at h
  split_ifs at h with h1 h2 h3
  all_goals first
    | (cases h; exact hpc)
    | (cases h; exact hinc)
    | cases h
    | exact buildFromRPNNodes_shape _ [] false (by simp) r h

/-- Every entry collected by the upward multiplier walk sits under a
`MUL` or `SHL` ancestor. -/
theorem findMultipliersUp_ops :
    ∀ (t : ExprTree) (p : List Bool) (pr : ExprTreeOp × ExprTree),
      pr ∈ findMultipliersUp t p →
      pr.1 = ExprTreeOp.ETO_MUL ∨ pr.1 = ExprTreeOp.ETO_SHL := by
  intro t
  induction t with
  | leaf d =>
    intro p pr h
    cases p <;> simp [findMultipliersUp] at h
  | node d c0 c1 ih0 ih1 =>
    intro p pr h
    cases p with
    | nil => simp [findMultipliersUp] at h
    | cons dir rest =>
      simp only [findMultipliersUp] at h
      by_cases hmul : (d.op == ExprTreeOp.ETO_MUL
          || d.op == ExprTreeOp.ETO_SHL) = true
      · rw [if_pos hmul] at h
        rcases List.mem_append.mp h with h | h
        · cases dir with
          | false => exact ih0 rest pr h
          | true => exact ih1 rest pr h
        · simp only [List.mem_singleton] at h
          subst h
          simpa using Bool.or_eq_true_iff.mp hmul |>.imp
            (fun x => by simpa using x) (fun x => by simpa using x)
      · rw [if_neg hmul] at h
        cases dir with
        | false => exact ih0 rest pr h
        | true => exact ih1 rest pr h

/-- Closed form of the multiplier fold: the product of the `MUL`
multipliers and `2^` the `SHL` multipliers, modulo `2^64`. -/
theorem applyMultipliers_eq (env : KernelEnv) :
    ∀ (l : List (ExprTreeOp × ExprTree)) (acc : Nat), acc < M64 →
      (∀ pr ∈ l, pr.1 = ExprTreeOp.ETO_MUL ∨ pr.1 = ExprTreeOp.ETO_SHL) →
      applyMultipliers env l acc =
        (acc * (l.map (fun pr =>
          if pr.1 == ExprTreeOp.ETO_MUL then evaluateExpressionTree env pr.2
          else 2 ^ evaluateExpressionTree env pr.2)).prod) % M64 := by
  intro l
  induction l with
  | nil =>
    intro acc hacc _
    simp only [applyMultipliers, List.map_nil, List.prod_nil, Nat.mul_one]
    unfold M64 at *
    omega
  | cons pr rest ih =>
    intro acc hacc hops
    obtain ⟨op, other⟩ := pr
    have hrest : ∀ pr ∈ rest,
        pr.1 = ExprTreeOp.ETO_MUL ∨ pr.1 = ExprTreeOp.ETO_SHL :=
      fun q hq => hops q (by simp [hq])
    rcases hops (op, other) (by simp) with hop | hop <;> subst hop
    · rw [show applyMultipliers env ((ExprTreeOp.ETO_MUL, other) :: rest) acc =
          applyMultipliers env rest
            ((acc * evaluateExpressionTree env other) % M64) from rfl]
      rw [ih _ (Nat.mod_lt _ (by unfold M64; omega)) hrest]
      rw [Nat.mod_mul_mod]
      simp only [List.map_cons, List.prod_cons,
        show ((ExprTreeOp.ETO_MUL == ExprTreeOp.ETO_MUL) = true) from rfl,
        if_true]
      rw [Nat.mul_assoc]
    · rw [show applyMultipliers env ((ExprTreeOp.ETO_SHL, other) :: rest) acc =
          applyMultipliers env rest
            ((acc * 2 ^ evaluateExpressionTree env other) % M64) from rfl]
      rw [ih _ (Nat.mod_lt _ (by unfold M64; omega)) hrest]
      rw [Nat.mod_mul_mod]
      simp only [List.map_cons, List.prod_cons,
        show ((ExprTreeOp.ETO_SHL == ExprTreeOp.ETO_MUL) = false) from rfl,
        Bool.false_eq_true, if_false]
      rw [Nat.mul_assoc]

/-- `toU32` lands below `2^32`. -/
theorem toU32_lt (i : Int) : toU32 i < M32 := by
  unfold toU32 M32
  omega

/-- A numeric token is never equal to a token `isNumber` rejects. -/
theorem isNumber_ne (s c : String) (h : isNumber s = true)
    (hc : isNumber c = false) : (s == c) = false := by
  cases he : s == c
  · rfl
  · rw [eq_of_beq he] at h
    rw [h] at hc
    exact Bool.noConfusion hc

/-- Under the three sentinel guards, `createExpressionTree` runs the
stack reduction on the reversed tokens. -/
theorem createExpressionTree_build (ts : List String) (h0 : ts.length ≠ 0)
    (h50 : ¬ts.length > 50)
    (hinc : (ts.reverse.head? == some "INCOMP") = false) :
    createExpressionTree ts =
      buildFromRPNNodes (ts.reverse.map mkRPNNode) [] false := by
  unfold createExpressionTree
  simp only [List.length_reverse]
  rw [if_neg (by simp [h0]), if_neg h50,
    if_neg (fun hcontra => by rw [hinc] at hcontra; exact Bool.noConfusion hcontra)]

/-- A single numeric token builds into a single constant leaf. -/
theorem createExpressionTree_single_const (s : String)
    (h : isNumber s = true) :
    createExpressionTree [s] =
      some (ExprTree.leaf
        { op := ExprTreeOp.ETO_CONST, original_str := s, arg := 0, value := 0 }) := by
  have hop : getExprTreeOp s = ExprTreeOp.ETO_CONST := by
    unfold getExprTreeOp
    rw [if_pos h]
  have hni : (s == "INCOMP") = false := isNumber_ne s "INCOMP" h (by decide)
  rw [createExpressionTree_build [s] (by simp) (by simp) (by simpa using hni)]
  have hm : mkRPNNode s =
      { op := ExprTreeOp.ETO_CONST, original_str := s, arg := 0, value := 0 } := by
    unfold mkRPNNode
    simp [hop]
  show buildFromRPNNodes [mkRPNNode s] [] false = _
  rw [hm]
  rfl

/-- Splitting the canonical constant-bound token list. -/
theorem splitLoopBoundsTokens_const (si0 si1 ss : String)
    (h0 : isNumber si0 = true) (h1 : isNumber si1 = true)
    (h2 : isNumber ss = true) :
    splitLoopBoundsTokens ["IN", si0, "FIN", si1, "STEP", ss] =
      ([si0], [si1], [ss]) := by
  have n00 := isNumber_ne si0 "IN" h0 (by decide)
  have n01 := isNumber_ne si0 "FIN" h0 (by decide)
  have n02 := isNumber_ne si0 "STEP" h0 (by decide)
  have n10 := isNumber_ne si1 "IN" h1 (by decide)
  have n11 := isNumber_ne si1 "FIN" h1 (by decide)
  have n12 := isNumber_ne si1 "STEP" h1 (by decide)
  have n20 := isNumber_ne ss "IN" h2 (by decide)
  have n21 := isNumber_ne ss "FIN" h2 (by decide)
  have n22 := isNumber_ne ss "STEP" h2 (by decide)
  unfold splitLoopBoundsTokens
  simp [splitLoopBoundsTokens.go, n00, n01, n02, n10, n11, n12, n20, n21, n22]

end SCHost

namespace SCHost

open ExprTreeOp

/-! # Claim theorems -/

/-- C1 (counterexample): the spec's scenario fails as stated — on the
caller-order postfix tokens `["4", "ARG0", "MUL"]` the builder returns
`nullptr` (`none`) instead of the tree `mul(const 4, arg0)`: the token
vector is reversed (line 1533) before the stack reduction, so `MUL` is
processed first and pops from an empty stack. -/
theorem claim_C1_counterexample :
    createExpressionTree ["4", "ARG0", "MUL"] = none := by decide

/-- C1 (amended): the builder consumes the **reversed** token vector, so
the scenario's tree is produced from the token list
`["MUL", "ARG0", "4"]`; on that tree, concrete evaluation with kernel
argument 0 bound to the constant 10 returns 40. -/
theorem claim_C1 :
    createExpressionTree ["MUL", "ARG0", "4"] =
      some (ExprTree.node
        { op := ETO_MUL, original_str := "MUL", arg := 0, value := 0 }
        (ExprTree.leaf { op := ETO_ARG, original_str := "ARG0", arg := 0, value := 0 })
        (ExprTree.leaf { op := ETO_CONST, original_str := "4", arg := 0, value := 0 })) ∧
    evaluateExpressionTree envArg10
      (ExprTree.node
        { op := ETO_MUL, original_str := "MUL", arg := 0, value := 0 }
        (ExprTree.leaf { op := ETO_ARG, original_str := "ARG0", arg := 0, value := 0 })
        (ExprTree.leaf { op := ETO_CONST, original_str := "4", arg := 0, value := 0 })) = 40 := by
  refine ⟨by decide, ?_⟩
  rw [evaluateExpressionTree_post]
  decide

/-- C7 (counterexample): a token stream *beginning* with the incomplete
marker does not yield the incomplete sentinel — the guard inspects
`RPN[0]` only after the vector is reversed, i.e. it tests the *last*
caller token; here the reversed stream starts with `ADD`, which
underflows the stack and yields `none`. -/
theorem claim_C7_counterexample :
    createExpressionTree ["INCOMP", "5", "4", "ADD"] ≠ some incompSentinel ∧
    createExpressionTree ["INCOMP", "5", "4", "ADD"] = none := by decide

/-- C7 (amended): the builder returns `none` for an empty token list;
a single pointer-chase sentinel for every token list longer than 50;
and a single incomplete sentinel for every (non-empty, within-cap)
token stream whose **last** token is the incomplete marker. -/
theorem claim_C7 :
    createExpressionTree [] = none ∧
    (∀ ts : List String, 50 < ts.length →
      createExpressionTree ts = some pcSentinel) ∧
    (∀ ts : List String, ts ≠ [] → ts.length ≤ 50 →
      ts.getLast? = some "INCOMP" →
      createExpressionTree ts = some incompSentinel) := by
  refine ⟨by decide, ?_, ?_⟩
  · intro ts h
    unfold createExpressionTree
    simp only [List.length_reverse]
    rw [if_neg (by simp only [beq_iff_eq]; omega), if_pos h]
  · intro ts hne hlen hlast
    unfold createExpressionTree
    simp only [List.length_reverse]
    have h1 : ¬((ts.length == 0) = true) := by
      simp only [beq_iff_eq, List.length_eq_zero]
      exact hne
    have h2 : ¬(ts.length > 50) := by omega
    have h3 : (ts.reverse.head? == some "INCOMP") = true := by
      rw [List.head?_reverse, hlast]
      rfl
    rw [if_neg h1, if_neg h2, if_pos h3]

/-- C7 (witness): a 51-token list yields the pointer-chase sentinel, and
a stream whose last token is `INCOMP` yields the incomplete sentinel. -/
theorem claim_C7_witness :
    createExpressionTree (List.replicate 51 "4") = some pcSentinel ∧
    createExpressionTree ["4", "INCOMP"] = some incompSentinel :=
  ⟨claim_C7.2.1 (List.replicate 51 "4") (by decide),
   claim_C7.2.2 ["4", "INCOMP"] (by decide) (by decide) (by decide)⟩

/-- C10: every token whose first character is `'-'` passes `isNumber`
(the per-character digit check is disabled for the whole token) and is
therefore mapped to the constant kind by `getExprTreeOp`. -/
theorem claim_C10 (s : String) (h : s.data.head? = some '-') :
    isNumber s = true ∧ getExprTreeOp s = ETO_CONST := by
  have hn : isNumber s = true := by
    unfold isNumber
    rw [List.all_eq_true]
    intro c _
    simp [h]
  refine ⟨hn, ?_⟩
  unfold getExprTreeOp
  rw [if_pos hn]

/-- C10 (witness): `"-abc"` is classified as a numeric constant even
though none of its trailing characters is a digit. -/
theorem claim_C10_witness :
    isNumber "-abc" = true ∧ getExprTreeOp "-abc" = ETO_CONST :=
  claim_C10 "-abc" (by decide)

/-- C8: the two-state PHI protocol — on the processed (reversed) stream
the first `PHI` token becomes a childless phi-term leaf, the second a
binary merge node over exactly two subtrees, and the state then resets
so the third `PHI` token is a terminal again; moreover every tree the
builder returns satisfies the two-or-zero-children shape invariant. -/
theorem claim_C8 :
    createExpressionTree ["PHI0", "5", "PHI0"] =
      some (ExprTree.node
        { op := ETO_PHI, original_str := "PHI0", arg := 0, value := 0 }
        (ExprTree.leaf { op := ETO_CONST, original_str := "5", arg := 0, value := 0 })
        (ExprTree.leaf { op := ETO_PHI_TERM, original_str := "PHI0", arg := 0, value := 0 })) ∧
    createExpressionTree ["PHI0", "PHI0", "5", "PHI0"] =
      some (ExprTree.leaf
        { op := ETO_PHI_TERM, original_str := "PHI0", arg := 0, value := 0 }) ∧
    (∀ (ts : List String) (r : ExprTree),
      createExpressionTree ts = some r → TreeShapeOk r) :=
  ⟨by decide, by decide, fun ts r h => createExpressionTree_shape ts r h⟩

/-- C8 (witness): the shape invariant evaluated on the tree built from
a concrete three-`PHI` stream. -/
theorem claim_C8_witness :
    TreeShapeOk (ExprTree.leaf
      { op := ETO_PHI_TERM, original_str := "PHI0", arg := 0, value := 0 }) :=
  claim_C8.2.2 ["PHI0", "PHI0", "5", "PHI0"] _ (by decide)

end SCHost

namespace SCHost

open ExprTreeOp

/-- C2 (failing input): max-mode resolution of a block-index terminal.
When the x grid dimension is recorded as an expression whose iteration-0
evaluation is 7, the terminal resolves to 7 — the `- 1` is missing on
that branch (line 1093), while the known-constant branch of the same
function does subtract 1 (and the sibling `identifyMaxForUnknows`,
lines 3688-3697, subtracts 1 in *both* cases); every other resolution
rule of the claim holds. -/
theorem claim_C2_failing :
    getMaxValueForLiterals envGridExpr7 99 1
      { op := ETO_BIDX, original_str := "BIDX", arg := 0, value := 0 } = 7 ∧
    getMaxValueForLiterals envGridConst7 99 1
      { op := ETO_BIDX, original_str := "BIDX", arg := 0, value := 0 } = 6 ∧
    getMinValueForLiterals envGridExpr7 99 1
      { op := ETO_BIDX, original_str := "BIDX", arg := 0, value := 0 } = 0 ∧
    getMinValueForLiterals envBdim65536 99 1
      { op := ETO_TIDX, original_str := "TIDX", arg := 0, value := 0 } = 0 ∧
    getMaxValueForLiterals envBdim65536 99 1
      { op := ETO_TIDX, original_str := "TIDX", arg := 0, value := 0 } = 65535 := by
  decide

/-- C6 (failing input): an n-ary access expression with two `LOAD`
operator nodes is **not** classified indirect — the traversal of
`isIndirectAccess` tests `root->op` (the root's operator) instead of the
current node's on every iteration (line 4964), so with an `ADD` root the
load counter never advances — and consequently the estimator runs the
full working-set pipeline for it instead of skipping it.  (Independent
divergence on the same path: the token `"LOAD"` is mapped to
`ETO_MEMOP` at line 881, making the later `ETO_LOAD` comparison dead.) -/
theorem claim_C6_failing :
    ExprTreeAdv.countOp ETO_LOAD twoLoadAdv = 2 ∧
    getExprTreeOp "LOAD" = ETO_MEMOP ∧
    isIndirectAccess twoLoadAdv = false ∧
    accessDensityOutcome (fun _ => 0) (fun _ => none) (fun _ => false)
      (IRVal.intConst 64 1024) 0 0 zeroBoundTree twoLoadAdv =
      some (AccessOutcome.estimated (IRVal.intConst 64 1024)) := by
  have hind : isIndirectAccess twoLoadAdv = false := by
    simp [isIndirectAccess, twoLoadAdv, isIndirectAccessGo, ExprTreeAdv.data,
      ExprTreeAdv.children]
  refine ⟨?_, by decide, hind, ?_⟩
  · simp [twoLoadAdv, ExprTreeAdv.countOp, ExprTreeAdv.countOpList]
  · unfold accessDensityOutcome
    simp [isPointerChase, zeroBoundTree, ExprTree.data, hind]

end SCHost

namespace SCHost

open ExprTreeOp

/-- C9 (counterexample): on the well-formed tree
`ADD(MUL(ADD(TIDX,1), ADD(TIDX,1)), 7)` with x block dimension `65536`,
the max-mode result is 7 while the min-mode result is 8: the inner
max-mode product is `65536 * 65536 = 2^32`, which the `unsigned` return
of `getMaxValueForLiterals` truncates to 0 when the outer `ADD` reads
its operand, so Max < Min and the working-set subtraction underflows. -/
theorem claim_C9_counterexample :
    wellFormed overflowTree = true ∧
    evaluateTreeForMax envBdim65536 99 0 overflowTree = 7 ∧
    evaluateTreeForMin envBdim65536 99 0 overflowTree = 8 ∧
    ¬(evaluateTreeForMin envBdim65536 99 0 overflowTree ≤
        evaluateTreeForMax envBdim65536 99 0 overflowTree) := by
  have hmax : evaluateTreeForMax envBdim65536 99 0 overflowTree = 7 := by
    unfold evaluateTreeForMax evaluateRPNforMax
    rw [toRPN_eq_postfixList]
    decide
  have hmin : evaluateTreeForMin envBdim65536 99 0 overflowTree = 8 := by
    unfold evaluateTreeForMin evaluateRPNforMin
    rw [toRPN_eq_postfixList]
    decide
  refine ⟨by decide, hmax, hmin, ?_⟩
  rw [hmax, hmin]
  decide

/-- C9 (amended): Max ≥ Min holds for every well-formed tree whose
terminals individually satisfy min ≤ max **and** whose max-mode
evaluation stays below `2^32` on every subtree (so that the 32-bit
truncation of intermediate operand reads never fires); under those
assumptions the working-set difference Max − Min is non-negative. -/
theorem claim_C9 (env : KernelEnv) (LoopArg loopid : Nat) (t : ExprTree)
    (hWF : wellFormed t = true)
    (hmono : ∀ s ∈ t.subtrees, s.childCount = 0 →
      getMinValueForLiterals env LoopArg loopid s.data ≤
        getMaxValueForLiterals env LoopArg loopid s.data)
    (hbound : ∀ s ∈ t.subtrees, evalMaxRaw env LoopArg loopid s < M32) :
    evaluateTreeForMin env LoopArg loopid t ≤
      evaluateTreeForMax env LoopArg loopid t ∧
    0 ≤ (evaluateTreeForMax env LoopArg loopid t : Int) -
      (evaluateTreeForMin env LoopArg loopid t : Int) := by
  have hraw : evalMinRaw env LoopArg loopid t ≤ evalMaxRaw env LoopArg loopid t :=
    evalRaw_mono env LoopArg loopid t hWF hmono
  have hminle : ∀ s ∈ t.subtrees, evalMinRaw env LoopArg loopid s ≤
      evalMaxRaw env LoopArg loopid s := by
    intro s hs
    exact evalRaw_mono env LoopArg loopid s (wellFormed_subtree t s hWF hs)
      (fun q hq h => hmono q (subtrees_trans t s q hs hq) h)
  have hminbound : ∀ s ∈ t.subtrees, evalMinRaw env LoopArg loopid s < M32 :=
    fun s hs => lt_of_le_of_lt (hminle s hs) (hbound s hs)
  have emax : evaluateTreeForMax env LoopArg loopid t =
      evalMaxRaw env LoopArg loopid t :=
    (evaluateTreeForMax_eq_struct env LoopArg loopid t hWF).trans
      (evalMaxStruct_eq_raw env LoopArg loopid t hWF hbound)
  have emin : evaluateTreeForMin env LoopArg loopid t =
      evalMinRaw env LoopArg loopid t :=
    (evaluateTreeForMin_eq_struct env LoopArg loopid t hWF).trans
      (evalMinStruct_eq_raw env LoopArg loopid t hWF hminbound)
  rw [emax, emin]
  exact ⟨hraw, by omega⟩

/-- C9 (witness): the overflow-free scenario `ADD(TIDX, 5)` with x block
dimension 4 — min 5 ≤ max 8 and the difference is non-negative. -/
theorem claim_C9_witness :
    evaluateTreeForMin envBdim4 99 0 smallAddTree ≤
      evaluateTreeForMax envBdim4 99 0 smallAddTree ∧
    0 ≤ (evaluateTreeForMax envBdim4 99 0 smallAddTree : Int) -
      (evaluateTreeForMin envBdim4 99 0 smallAddTree : Int) :=
  claim_C9 envBdim4 99 0 smallAddTree (by decide) (by decide) (by decide)

end SCHost

namespace SCHost

open ExprTreeOp

/-- C5 (counterexample): for `shl(arg0, const 32)` the coefficient
extractor does not return `1 << 32 = 2^32`: the 64-bit multiplier
product is truncated by the function's `unsigned` (32-bit) return type,
so the extracted coefficient is 0. -/
theorem claim_C5_counterexample :
    partialDifferenceOfExpressionTreeWRTGivenNode envBase shlArg0By32
      ETO_ARG 0 = 0 ∧
    (2 : Nat) ^ 32 ≠ 0 := by
  have hp : findNodePath ETO_ARG 0 shlArg0By32 = some [false] := rfl
  have he : evaluateExpressionTree envBase
      (ExprTree.leaf { op := ETO_CONST, original_str := "32", arg := 0, value := 0 }) =
      toU32 (cppStoi "32") := by
    rw [evaluateExpressionTree_post]
    rfl
  have hpd : partialDifferenceOfExpressionTreeWRTGivenNode envBase shlArg0By32
      ETO_ARG 0 =
      u32 (applyMultipliers envBase (findMultipliersUp shlArg0By32 [false]) 1) := by
    unfold partialDifferenceOfExpressionTreeWRTGivenNode
    rw [hp]
  have hm : findMultipliersUp shlArg0By32 [false] =
      [(ETO_SHL,
        ExprTree.leaf { op := ETO_CONST, original_str := "32", arg := 0, value := 0 })] := rfl
  have step : applyMultipliers envBase
      [(ETO_SHL,
        ExprTree.leaf { op := ETO_CONST, original_str := "32", arg := 0, value := 0 })] 1 =
      u64 (1 * 2 ^ evaluateExpressionTree envBase
        (ExprTree.leaf { op := ETO_CONST, original_str := "32", arg := 0, value := 0 })) := rfl
  refine ⟨?_, by decide⟩
  rw [hpd, hm, step, he]
  decide

/-- C5 (amended): for `mul(arg0, const c)` the extractor returns the
resolved value of `c`; for `shl(arg0, const c)` with resolved shift
amount `k < 64` it returns `2^k` reduced mod `2^32` (the `unsigned`
return truncates, so `1 << k` survives only for `k < 32`); and in
general, over every `mul`/`shl` ancestor of the target, the result is
the 32-bit truncation of the 64-bit product of the `mul` multipliers
and `2^` the `shl` multipliers. -/
theorem claim_C5 :
    (∀ (env : KernelEnv) (astr cstr : String),
      partialDifferenceOfExpressionTreeWRTGivenNode env
        (ExprTree.node { op := ETO_MUL, original_str := "MUL", arg := 0, value := 0 }
          (ExprTree.leaf { op := ETO_ARG, original_str := astr, arg := 0, value := 0 })
          (ExprTree.leaf { op := ETO_CONST, original_str := cstr, arg := 0, value := 0 }))
        ETO_ARG 0 = toU32 (cppStoi cstr)) ∧
    (∀ (env : KernelEnv) (astr cstr : String) (k : Nat),
      toU32 (cppStoi cstr) = k → k < 64 →
      partialDifferenceOfExpressionTreeWRTGivenNode env
        (ExprTree.node { op := ETO_SHL, original_str := "SHL", arg := 0, value := 0 }
          (ExprTree.leaf { op := ETO_ARG, original_str := astr, arg := 0, value := 0 })
          (ExprTree.leaf { op := ETO_CONST, original_str := cstr, arg := 0, value := 0 }))
        ETO_ARG 0 = 2 ^ k % M32) ∧
    (∀ (env : KernelEnv) (root : ExprTree) (given : ExprTreeOp) (arg : Nat)
        (p : List Bool),
      findNodePath given arg root = some p →
      partialDifferenceOfExpressionTreeWRTGivenNode env root given arg =
        u32 (((findMultipliersUp root p).map (fun pr =>
          if pr.1 == ETO_MUL then evaluateExpressionTree env pr.2
          else 2 ^ evaluateExpressionTree env pr.2)).prod % M64)) := by
  refine ⟨?_, ?_, ?_⟩
  · intro env astr cstr
    have hp : findNodePath ETO_ARG 0
        (ExprTree.node { op := ETO_MUL, original_str := "MUL", arg := 0, value := 0 }
          (ExprTree.leaf { op := ETO_ARG, original_str := astr, arg := 0, value := 0 })
          (ExprTree.leaf { op := ETO_CONST, original_str := cstr, arg := 0, value := 0 })) =
        some [false] := rfl
    have he : evaluateExpressionTree env
        (ExprTree.leaf { op := ETO_CONST, original_str := cstr, arg := 0, value := 0 }) =
        toU32 (cppStoi cstr) := by
      rw [evaluateExpressionTree_post]
      rfl
    have hpd : partialDifferenceOfExpressionTreeWRTGivenNode env
        (ExprTree.node { op := ETO_MUL, original_str := "MUL", arg := 0, value := 0 }
          (ExprTree.leaf { op := ETO_ARG, original_str := astr, arg := 0, value := 0 })
          (ExprTree.leaf { op := ETO_CONST, original_str := cstr, arg := 0, value := 0 }))
        ETO_ARG 0 =
        u32 (applyMultipliers env
          (findMultipliersUp
            (ExprTree.node { op := ETO_MUL, original_str := "MUL", arg := 0, value := 0 }
              (ExprTree.leaf { op := ETO_ARG, original_str := astr, arg := 0, value := 0 })
              (ExprTree.leaf { op := ETO_CONST, original_str := cstr, arg := 0, value := 0 }))
            [false]) 1) := by
      unfold partialDifferenceOfExpressionTreeWRTGivenNode
      rw [hp]
    have hm : findMultipliersUp
        (ExprTree.node { op := ETO_MUL, original_str := "MUL", arg := 0, value := 0 }
          (ExprTree.leaf { op := ETO_ARG, original_str := astr, arg := 0, value := 0 })
          (ExprTree.leaf { op := ETO_CONST, original_str := cstr, arg := 0, value := 0 }))
        [false] =
        [(ETO_MUL,
          ExprTree.leaf { op := ETO_CONST, original_str := cstr, arg := 0, value := 0 })] := rfl
    have step : applyMultipliers env
        [(ETO_MUL,
          ExprTree.leaf { op := ETO_CONST, original_str := cstr, arg := 0, value := 0 })] 1 =
        u64 (1 * evaluateExpressionTree env
          (ExprTree.leaf { op := ETO_CONST, original_str := cstr, arg := 0, value := 0 })) := rfl
    rw [hpd, hm, step, he]
    have hlt := toU32_lt (cppStoi cstr)
    unfold u32 u64 M32 M64 at *
    omega
  · intro env astr cstr k hk hk64
    have hp : findNodePath ETO_ARG 0
        (ExprTree.node { op := ETO_SHL, original_str := "SHL", arg := 0, value := 0 }
          (ExprTree.leaf { op := ETO_ARG, original_str := astr, arg := 0, value := 0 })
          (ExprTree.leaf { op := ETO_CONST, original_str := cstr, arg := 0, value := 0 })) =
        some [false] := rfl
    have he : evaluateExpressionTree env
        (ExprTree.leaf { op := ETO_CONST, original_str := cstr, arg := 0, value := 0 }) =
        toU32 (cppStoi cstr) := by
      rw [evaluateExpressionTree_post]
      rfl
    have hpd : partialDifferenceOfExpressionTreeWRTGivenNode env
        (ExprTree.node { op := ETO_SHL, original_str := "SHL", arg := 0, value := 0 }
          (ExprTree.leaf { op := ETO_ARG, original_str := astr, arg := 0, value := 0 })
          (ExprTree.leaf { op := ETO_CONST, original_str := cstr, arg := 0, value := 0 }))
        ETO_ARG 0 =
        u32 (applyMultipliers env
          (findMultipliersUp
            (ExprTree.node { op := ETO_SHL, original_str := "SHL", arg := 0, value := 0 }
              (ExprTree.leaf { op := ETO_ARG, original_str := astr, arg := 0, value := 0 })
              (ExprTree.leaf { op := ETO_CONST, original_str := cstr, arg := 0, value := 0 }))
            [false]) 1) := by
      unfold partialDifferenceOfExpressionTreeWRTGivenNode
      rw [hp]
    have hm : findMultipliersUp
        (ExprTree.node { op := ETO_SHL, original_str := "SHL", arg := 0, value := 0 }
          (ExprTree.leaf { op := ETO_ARG, original_str := astr, arg := 0, value := 0 })
          (ExprTree.leaf { op := ETO_CONST, original_str := cstr, arg := 0, value := 0 }))
        [false] =
        [(ETO_SHL,
          ExprTree.leaf { op := ETO_CONST, original_str := cstr, arg := 0, value := 0 })] := rfl
    have step : applyMultipliers env
        [(ETO_SHL,
          ExprTree.leaf { op := ETO_CONST, original_str := cstr, arg := 0, value := 0 })] 1 =
        u64 (1 * 2 ^ evaluateExpressionTree env
          (ExprTree.leaf { op := ETO_CONST, original_str := cstr, arg := 0, value := 0 })) := rfl
    rw [hpd, hm, step, he, hk]
    have h64 : (2 : Nat) ^ k < M64 := by
      have hh : (2 : Nat) ^ k < 2 ^ 64 := Nat.pow_lt_pow_right (by omega) hk64
      have he64 : (2 : Nat) ^ 64 = M64 := by unfold M64; norm_num
      omega
    unfold u32 u64
    rw [Nat.one_mul, Nat.mod_eq_of_lt h64]
  · intro env root given arg p hp
    have hpd : partialDifferenceOfExpressionTreeWRTGivenNode env root given arg =
        u32 (applyMultipliers env (findMultipliersUp root p) 1) := by
      unfold partialDifferenceOfExpressionTreeWRTGivenNode
      rw [hp]
    rw [hpd, applyMultipliers_eq env (findMultipliersUp root p) 1
      (by unfold M64; omega) (fun pr hpr => findMultipliersUp_ops root p pr hpr),
      Nat.one_mul]

/-- C5 (witness): concrete instances of the three amended statements —
`mul(arg0, 7)` extracts 7, `shl(arg0, 3)` extracts `2^3 = 8`, and the
general closed form evaluated on `shl(arg0, 32)`. -/
theorem claim_C5_witness :
    partialDifferenceOfExpressionTreeWRTGivenNode envBase mulArg0By7
      ETO_ARG 0 = toU32 (cppStoi "7") ∧
    partialDifferenceOfExpressionTreeWRTGivenNode envBase
      (ExprTree.node { op := ETO_SHL, original_str := "SHL", arg := 0, value := 0 }
        (ExprTree.leaf { op := ETO_ARG, original_str := "ARG0", arg := 0, value := 0 })
        (ExprTree.leaf { op := ETO_CONST, original_str := "3", arg := 0, value := 0 }))
      ETO_ARG 0 = 2 ^ 3 % M32 ∧
    partialDifferenceOfExpressionTreeWRTGivenNode envBase shlArg0By32
      ETO_ARG 0 =
      u32 (((findMultipliersUp shlArg0By32 [false]).map (fun pr =>
        if pr.1 == ETO_MUL then evaluateExpressionTree envBase pr.2
        else 2 ^ evaluateExpressionTree envBase pr.2)).prod % M64) :=
  ⟨claim_C5.1 envBase "ARG0" "7",
   claim_C5.2.1 envBase "ARG0" "3" 3 (by decide) (by decide),
   claim_C5.2.2 envBase shlArg0By32 ETO_ARG 0 [false] (by decide)⟩

end SCHost

namespace SCHost

open ExprTreeOp

/-- Denotation of the emitted `(Fin - In) / Step` instruction pattern on
in-range constants. -/
theorem denote_udiv_sub_const (a b c : Nat) (ha : a < M32) (hb : b < M32)
    (hc : c < M32) (hba : b ≤ a) :
    IRVal.denote (IRVal.binop ETO_UDIV
      (IRVal.binop ETO_SUB (IRVal.intConst 32 a) (IRVal.intConst 32 b))
      (IRVal.intConst 32 c)) = (a - b) / c := by
  have dUdiv : ∀ x y : IRVal, (IRVal.binop ETO_UDIV x y).denote =
      x.denote / y.denote := fun _ _ => rfl
  have dSub : ∀ x y : IRVal, (IRVal.binop ETO_SUB x y).denote =
      (x.denote + (2 ^ x.width - y.denote % 2 ^ x.width)) % 2 ^ x.width :=
    fun _ _ => rfl
  have dConst : ∀ w v : Nat, (IRVal.intConst w v).denote = v % 2 ^ w :=
    fun _ _ => rfl
  rw [dUdiv, dSub, dConst, dConst, dConst,
    show (IRVal.intConst 32 a).width = 32 from rfl]
  have e : (2 : Nat) ^ 32 = M32 := by unfold M32; norm_num
  rw [e]
  have h1 : (a % M32 + (M32 - b % M32 % M32)) % M32 = a - b := by
    unfold M32 at *
    omega
  have h2 : c % M32 = c := Nat.mod_eq_of_lt hc
  rw [h1, h2]

/-- C3: loop accounting on constant bounds, and propagation of build
failures.  (a) For a non-zero loop id with stored constant bounds
`IN i0 FIN i1 STEP s` (numeric tokens, `i0 ≤ i1`) the loop is not
flagged incomputable and the emitted iteration-count value denotes
`(i1 - i0) / s` under integer division.  (b) Whenever the initial or
the final bound expression cannot be built from its token bucket, the
loop is flagged incomputable and the estimator records the incomputable
outcome — no estimate, never a silent zero — for every non-pointer-chase
access inside that loop. -/
theorem claim_C3 :
    (∀ (kernelLoopBounds : Nat → Option (List String)) (lid : Nat)
        (si0 si1 ss : String) (i0 i1 s : Nat),
      lid ≠ 0 →
      kernelLoopBounds lid = some ["IN", si0, "FIN", si1, "STEP", ss] →
      isNumber si0 = true → isNumber si1 = true → isNumber ss = true →
      toU32 (cppStoi si0) = i0 → toU32 (cppStoi si1) = i1 →
      toU32 (cppStoi ss) = s →
      i0 ≤ i1 →
      loopMarkedIncomputable kernelLoopBounds lid = false ∧
      ∃ r, loopIterationsEntry (fun _ => none) kernelLoopBounds lid = some r ∧
        IRVal.denote r = (i1 - i0) / s) ∧
    (∀ (kernelLoopBounds : Nat → Option (List String)) (lid : Nat)
        (toks : List String),
      lid ≠ 0 →
      kernelLoopBounds lid = some toks →
      (createExpressionTree (splitLoopBoundsTokens toks).1 = none ∨
        createExpressionTree (splitLoopBoundsTokens toks).2.1 = none) →
      loopMarkedIncomputable kernelLoopBounds lid = true ∧
      ∀ (parentMap : Nat → Nat) (itersMap : Nat → Option IRVal)
          (NumThreadsInGrid : IRVal) (fuel : Nat) (Expr : ExprTree)
          (AdvExpr : ExprTreeAdv),
        isPointerChase Expr = false →
        accessDensityOutcome parentMap itersMap
          (loopMarkedIncomputable kernelLoopBounds) NumThreadsInGrid fuel lid
          Expr AdvExpr = some AccessOutcome.incomputable) := by
  constructor
  · intro kb lid si0 si1 ss i0 i1 s hlid hkb hn0 hn1 hn2 hv0 hv1 hv2 hle
    have hl0 : (lid == 0) = false := by simp [hlid]
    have hpe : partiallyEvaluatedLoopIters kb lid =
        some (doOperationOnNodes ETO_DIV
          (doOperationOnNodes ETO_SUB
            (ExprTree.leaf { op := ETO_CONST, original_str := si1, arg := 0, value := 0 })
            (ExprTree.leaf { op := ETO_CONST, original_str := si0, arg := 0, value := 0 }))
          (ExprTree.leaf { op := ETO_CONST, original_str := ss, arg := 0, value := 0 })) := by
      unfold partiallyEvaluatedLoopIters
      simp only [hl0, Bool.false_eq_true, if_false]
      rw [hkb]
      simp only [splitLoopBoundsTokens_const si0 si1 ss hn0 hn1 hn2,
        createExpressionTree_single_const si0 hn0,
        createExpressionTree_single_const si1 hn1,
        createExpressionTree_single_const ss hn2, Option.getD_some]
    have hemit : insertLoopItersEvaluationCode (fun _ => none)
        (doOperationOnNodes ETO_DIV
          (doOperationOnNodes ETO_SUB
            (ExprTree.leaf { op := ETO_CONST, original_str := si1, arg := 0, value := 0 })
            (ExprTree.leaf { op := ETO_CONST, original_str := si0, arg := 0, value := 0 }))
          (ExprTree.leaf { op := ETO_CONST, original_str := ss, arg := 0, value := 0 })) =
        some (IRVal.binop ETO_UDIV
          (IRVal.binop ETO_SUB
            (IRVal.intConst 32 (u32 (toU64 (cppStoi si1))))
            (IRVal.intConst 32 (u32 (toU64 (cppStoi si0)))))
          (IRVal.intConst 32 (u32 (toU64 (cppStoi ss))))) := rfl
    rw [u32_toU64, u32_toU64, u32_toU64, hv0, hv1, hv2] at hemit
    refine ⟨?_, ?_⟩
    · unfold loopMarkedIncomputable
      rw [hpe]
      rfl
    · refine ⟨IRVal.binop ETO_UDIV
        (IRVal.binop ETO_SUB (IRVal.intConst 32 i1) (IRVal.intConst 32 i0))
        (IRVal.intConst 32 s), ?_, ?_⟩
      · unfold loopIterationsEntry
        rw [hpe]
        exact hemit
      · exact denote_udiv_sub_const i1 i0 s (hv1 ▸ toU32_lt _)
          (hv0 ▸ toU32_lt _) (hv2 ▸ toU32_lt _) hle
  · intro kb lid toks hlid hkb hbad
    have hl0 : (lid == 0) = false := by simp [hlid]
    have hpe : partiallyEvaluatedLoopIters kb lid = none := by
      unfold partiallyEvaluatedLoopIters
      simp only [hl0, Bool.false_eq_true, if_false]
      rw [hkb]
      rcases hbad with hb | hb
      · cases hf : createExpressionTree (splitLoopBoundsTokens toks).2.1 <;>
          simp [hb, hf]
      · cases hi : createExpressionTree (splitLoopBoundsTokens toks).1 <;>
          simp [hb, hi]
    have hflag : loopMarkedIncomputable kb lid = true := by
      unfold loopMarkedIncomputable
      rw [hpe]
      rfl
    refine ⟨hflag, ?_⟩
    intro pm im th fuel Expr Adv hpc
    unfold accessDensityOutcome
    simp only [hpc, Bool.false_eq_true, if_false, hl0, hflag, if_true]

/-- C3 (witness): the constant-bound loop `IN 4 FIN 20 STEP 2` denotes
`(20 - 4) / 2 = 8` iterations and is not flagged; the table whose `IN`
bucket is a lone `MUL` token is flagged incomputable and every access
inside it records the incomputable outcome. -/
theorem claim_C3_witness :
    (loopMarkedIncomputable boundsConst 1 = false ∧
      ∃ r, loopIterationsEntry (fun _ => none) boundsConst 1 = some r ∧
        IRVal.denote r = (20 - 4) / 2) ∧
    (loopMarkedIncomputable boundsBroken 1 = true ∧
      accessDensityOutcome (fun _ => 0) (fun _ => none)
        (loopMarkedIncomputable boundsBroken) (IRVal.intConst 64 1024) 3 1
        zeroBoundTree constAdv = some AccessOutcome.incomputable) := by
  constructor
  · exact claim_C3.1 boundsConst 1 "4" "20" "2" 4 20 2 (by decide) (by decide)
      (by decide) (by decide) (by decide) (by decide) (by decide) (by decide)
      (by decide)
  · obtain ⟨hflag, hrec⟩ := claim_C3.2 boundsBroken 1
      ["IN", "MUL", "FIN", "20", "STEP", "2"] (by decide) (by decide)
      (by decide)
    exact ⟨hflag, hrec (fun _ => 0) (fun _ => none) (IRVal.intConst 64 1024) 3
      zeroBoundTree constAdv (by decide)⟩

end SCHost

namespace SCHost

open ExprTreeOp

/-- C4: the estimator's execution count.  (a) A top-level access (loop
id 0) gets exactly the grid-wide thread count.  (b) An access in loop
`lid` whose parent chain `ps` reaches the top gets an emitted 64-bit
execution count denoting
`(iters(lid) * iters(parents) * threads) mod 2^64` — in particular
`N * M * threads` for the inner of two nested loops — and when every
per-loop count and the thread count have all multiplies 64-bit, so does
the emitted execution count (each multiply is preceded by 32→64-bit
promotion of any 32-bit operand). -/
theorem claim_C4 :
    (∀ (parentMap : Nat → Nat) (itersMap : Nat → Option IRVal)
        (incompMap : Nat → Bool) (NumThreadsInGrid : IRVal) (fuel : Nat)
        (Expr : ExprTree) (AdvExpr : ExprTreeAdv),
      isPointerChase Expr = false → isIndirectAccess AdvExpr = false →
      accessDensityOutcome parentMap itersMap incompMap NumThreadsInGrid fuel 0
        Expr AdvExpr = some (AccessOutcome.estimated NumThreadsInGrid)) ∧
    (∀ (parentMap : Nat → Nat) (itersMap : Nat → Option IRVal)
        (incompMap : Nat → Bool) (vals : Nat → IRVal)
        (NumThreadsInGrid : IRVal) (fuel lid : Nat) (ps : List Nat)
        (Expr : ExprTree) (AdvExpr : ExprTreeAdv),
      lid ≠ 0 → isPointerChase Expr = false →
      isIndirectAccess AdvExpr = false → incompMap lid = false →
      parentChain parentMap fuel lid = some ps →
      (∀ p ∈ lid :: ps, itersMap p = some (vals p) ∧
        ((vals p).width = 32 ∧ (vals p).denote < 2 ^ 31 ∨
          (vals p).width = 64)) →
      NumThreadsInGrid.width = 64 →
      ∃ ec, accessDensityOutcome parentMap itersMap incompMap NumThreadsInGrid
          fuel lid Expr AdvExpr = some (AccessOutcome.estimated ec) ∧
        ec.width = 64 ∧
        ec.denote = (((lid :: ps).map (fun p => (vals p).denote)).prod *
          NumThreadsInGrid.denote) % M64 ∧
        (allMulOperands64 NumThreadsInGrid = true →
          (∀ p ∈ lid :: ps, allMulOperands64 (vals p) = true) →
          allMulOperands64 ec = true)) := by
  constructor
  · intro pm im inc th fuel Expr Adv hpc hind
    unfold accessDensityOutcome
    simp only [hpc, Bool.false_eq_true, if_false, hind,
      show ((0 == 0) = true) from rfl, if_true]
  · intro pm im inc vals th fuel lid ps Expr Adv hlid hpc hind hinc hchain
      hvals hthw
    have hl0 : (lid == 0) = false := by simp [hlid]
    have hit := (hvals lid (by simp)).1
    have hv := (hvals lid (by simp)).2
    obtain ⟨LI, hLI, hLIw, hLId, hLIa⟩ :
        ∃ LI, (if (vals lid).width == 32
            then insertCodeToCastInt32ToInt64 (vals lid)
            else vals lid) = LI ∧
          LI.width = 64 ∧ LI.denote = (vals lid).denote ∧
          allMulOperands64 LI = allMulOperands64 (vals lid) := by
      rcases hv with ⟨h32, hsm⟩ | h64
      · refine ⟨IRVal.sext3264 (vals lid), ?_, rfl, ?_, ?_⟩
        · simp [h32, insertCodeToCastInt32ToInt64]
        · exact sext_denote_small (vals lid) h32 hsm
        · exact allMulOperands64_sext (vals lid)
      · refine ⟨vals lid, ?_, h64, rfl, rfl⟩
        rw [if_neg]
        simp [h64]
    obtain ⟨r, hr, hrw, hrd, hra⟩ := nestedItersWalk_spec pm im vals ps fuel
      lid LI hchain (fun p hp => hvals p (by simp [hp])) hLIw
    have hn : insertCodeComputeLoopIterationCountNested pm im fuel lid =
        some r := by
      unfold insertCodeComputeLoopIterationCountNested
      rw [hit]
      show nestedItersWalk pm im fuel lid
        (if (vals lid).width == 32
          then insertCodeToCastInt32ToInt64 (vals lid)
          else vals lid) = some r
      rw [hLI]
      exact hr
    have hcomp : insertComputationNode r th ETO_MUL =
        some (IRVal.binop ETO_MUL r th) := by
      unfold insertComputationNode
      simp [hrw, hthw]
    refine ⟨IRVal.binop ETO_MUL r th, ?_, hrw, ?_, ?_⟩
    · unfold accessDensityOutcome
      simp only [hpc, Bool.false_eq_true, if_false, hl0, hinc]
      rw [hn]
      simp [hcomp, hind]
    · have dm : (IRVal.binop ETO_MUL r th).denote =
          (r.denote * th.denote) % 2 ^ r.width := rfl
      have e64 : (2 : Nat) ^ 64 = M64 := by unfold M64; norm_num
      rw [dm, hrw, e64, hrd, Nat.mod_mul_mod, hLId, List.map_cons,
        List.prod_cons, Nat.mul_assoc]
    · intro hthA hvalsA
      have hrA : allMulOperands64 r = true :=
        hra (hLIa.trans (by rw [hvalsA lid (by simp)]))
          (fun q hq => hvalsA q (by simp [hq]))
      simp [allMulOperands64, hrw, hthw, hrA, hthA]

/-- C4 (witness): two nested loops — loop 2 (9 iterations, inner) inside
loop 1 (7 iterations) — and 1024 threads: a top-level access gets the
thread count itself, and an access in loop 2 gets an execution count
denoting `9 * 7 * 1024 = 64512`. -/
theorem claim_C4_witness :
    accessDensityOutcome parentMapTwoLoops itersMapTwoLoops (fun _ => false)
      (IRVal.intConst 64 1024) 5 0 zeroBoundTree constAdv =
      some (AccessOutcome.estimated (IRVal.intConst 64 1024)) ∧
    ∃ ec, accessDensityOutcome parentMapTwoLoops itersMapTwoLoops
        (fun _ => false) (IRVal.intConst 64 1024) 5 2 zeroBoundTree constAdv =
        some (AccessOutcome.estimated ec) ∧ ec.denote = 64512 := by
  have hind : isIndirectAccess constAdv = false := by
    simp [isIndirectAccess, constAdv, isIndirectAccessGo, ExprTreeAdv.data,
      ExprTreeAdv.children]
  constructor
  · exact claim_C4.1 parentMapTwoLoops itersMapTwoLoops (fun _ => false)
      (IRVal.intConst 64 1024) 5 zeroBoundTree constAdv (by decide) hind
  · obtain ⟨ec, ho, hw, hd, ha⟩ := claim_C4.2 parentMapTwoLoops
      itersMapTwoLoops (fun _ => false) valsTwoLoops (IRVal.intConst 64 1024)
      5 2 [1] zeroBoundTree constAdv (by decide) (by decide) hind rfl
      (by decide) (by decide) rfl
    refine ⟨ec, ho, ?_⟩
    rw [hd]
    decide

end SCHost
